import Mathlib

/-!
Verification of the beep_maker signal-generation pipeline.

This file gives a shallow embedding of the repository's core modules
(`src/config/constants.py`, `src/generator/waveforms.py`,
`src/generator/envelope.py`, `src/generator/sounds.py`,
`src/utils/wav_writer.py`) and proves the specification claims about them.

Modelling conventions:
* Python floats are modelled as exact rationals (`ℚ`); every concrete number
  appearing in the repository (durations, frequencies, millisecond values,
  16000, 32767, ...) is exactly representable, and at every concrete input
  used below the float computations of the source are exact, so the rational
  model agrees with the float semantics.
* Functions that raise `ValueError` are modelled as `Option`-returning
  (`none` = the exception), with the validation checks transcribed in source
  order.
* `numpy` arrays are `List`s; vectorised arithmetic is `List.map` /
  `List.zipWith`; in-place slice assignment `a[p:q] = v` / `a[p:q] *= v`
  becomes an explicit take/middle/drop splice.
* The transcendental operations used by the source (`np.sin`, `np.log`,
  `**` on floats, `np.pi`) are abstracted into a `RealOps` record so the
  definitions stay computable; theorems instantiate it with
  `Real.sin`, `Real.log`, `Real.rpow`, `Real.pi`.  Division by zero in the
  embedding follows Mathlib's `x / 0 = 0` convention (the floating-point
  source would produce non-finite values there; the one place this matters,
  the logarithmic sweep with equal start and end frequencies, is flagged as
  an open question by the spec itself).
* `int(x)` (float-to-int truncation toward zero) is `pyInt`; Python 3
  `round` (banker's rounding) is `pyRound`.
-/

namespace BeepMaker

/-- Source `src/config/constants.py`: `SAMPLE_RATE: int = 16000`. -/
def SAMPLE_RATE : ℕ := 16000

/-- Source `src/config/constants.py`: `BIT_DEPTH: int = 16`. -/
def BIT_DEPTH : ℕ := 16

/-- Source `src/config/constants.py`: `CHANNELS: int = 1`. -/
def CHANNELS : ℕ := 1

/-- Source `src/config/constants.py`: `MAX_AMPLITUDE: int = 32767`. -/
def MAX_AMPLITUDE : ℕ := 32767

/-- Source `src/config/constants.py`: `FADE_DURATION_MS: int = 5`. -/
def FADE_DURATION_MS : ℚ := 5

/-- Source `src/config/constants.py`: `class SoundType(str, Enum)` — the closed set
of 8 sound identities. -/
inductive SoundType : Type
  | ok
  | ng
  | warn
  | crit
  | moo
  | mew
  | scan_ok
  | scan_ng
  deriving DecidableEq

/-- Python `int(q)` applied to a real number: truncation toward zero. -/
def pyInt (q : ℚ) : ℤ := if 0 ≤ q then ⌊q⌋ else ⌈q⌉

/-- Python 3 `round(q)` to an integer: round half to even. -/
def pyRound (q : ℚ) : ℤ :=
  if Int.fract q < 1 / 2 then ⌊q⌋
  else if 1 / 2 < Int.fract q then ⌊q⌋ + 1
  else if 2 ∣ ⌊q⌋ then ⌊q⌋ else ⌊q⌋ + 1

/-- The number of samples computed identically by every generator:
`num_samples = int(SAMPLE_RATE * duration)`. -/
def num_samples (duration : ℚ) : ℕ := (pyInt ((SAMPLE_RATE : ℚ) * duration)).toNat

/-- Numpy `np.linspace(0, duration, n, endpoint=False)`: the time grid
`t_i = i * duration / n`. -/
def t_grid (duration : ℚ) (n : ℕ) : List ℚ :=
  (List.range n).map (fun i : ℕ => (i : ℚ) * duration / (n : ℚ))

section Field

variable {α : Type} [LinearOrderedField α]

/-- Numpy `np.linspace(a, b, k)` (with endpoint): `a + (b - a) * j / (k - 1)` for
`j < k`; for `k = 1` this is `[a]` (numpy returns the start point), which the
formula also gives under the `x / 0 = 0` convention. -/
def np_linspace (a b : α) (k : ℕ) : List α :=
  (List.range k).map (fun j : ℕ => a + (b - a) * (j : α) / ((k : α) - 1))

/-- The record of transcendental operations the source takes from numpy:
`np.sin`, `np.log`, float `**`, `np.pi`.  Keeping them as a parameter keeps
the embedding computable; all theorems instantiate it with
`⟨Real.sin, Real.log, Real.rpow, Real.pi⟩`. -/
structure RealOps (α : Type) where
  sin : α → α
  log : α → α
  rpow : α → α → α
  pi : α

/-- Source `src/generator/waveforms.py`: `generate_sine_wave(frequency, duration)`.
Validation in source order, then `np.sin(2 * np.pi * frequency * t)` over the
endpoint-free time grid of `int(SAMPLE_RATE * duration)` points. -/
def generate_sine_wave (ops : RealOps α) (frequency duration : ℚ) : Option (List α) :=
  if frequency ≤ 0 then none
  else if duration ≤ 0 then none
  else
    let n := num_samples duration
    some ((t_grid duration n).map (fun t : ℚ => ops.sin (2 * ops.pi * (frequency : α) * (t : α))))

/-- Source `src/generator/waveforms.py`: `generate_square_wave(frequency, duration,
duty)`.  `phase = (frequency * t) % 1.0`; `np.where(phase < duty, 1.0, -1.0)`.
All values are rational, so no oscillator record is needed. -/
def generate_square_wave (frequency duration duty : ℚ) : Option (List ℚ) :=
  if frequency ≤ 0 then none
  else if duration ≤ 0 then none
  else if ¬(0 < duty ∧ duty < 1) then none
  else
    let n := num_samples duration
    some ((t_grid duration n).map (fun t : ℚ =>
      if Int.fract (frequency * t) < duty then 1 else -1))

/-- Source `src/generator/waveforms.py`: `generate_sawtooth_wave(frequency,
duration)`.  `phase = (frequency * t) % 1.0`; result `2.0 * phase - 1.0`. -/
def generate_sawtooth_wave (frequency duration : ℚ) : Option (List ℚ) :=
  if frequency ≤ 0 then none
  else if duration ≤ 0 then none
  else
    let n := num_samples duration
    some ((t_grid duration n).map (fun t : ℚ => 2 * Int.fract (frequency * t) - 1))

/-- Source `src/generator/waveforms.py`: `generate_sweep(start_freq, end_freq,
duration, logarithmic)`.  Logarithmic branch:
`phase = 2π·start_freq·duration / log(ratio) · (ratio^(t/duration) − 1)`;
linear branch: `phase = 2π·(start_freq·t + 0.5·slope·t²)` with
`slope = (end_freq − start_freq)/duration`; sample `sin(phase)`.
(The source also computes an unused `instantaneous_freq` array in the
logarithmic branch; it does not affect the output and is omitted.) -/
def generate_sweep (ops : RealOps α) (start_freq end_freq duration : ℚ)
    (logarithmic : Bool) : Option (List α) :=
  if start_freq ≤ 0 then none
  else if end_freq ≤ 0 then none
  else if duration ≤ 0 then none
  else
    let n := num_samples duration
    some ((t_grid duration n).map (fun t : ℚ =>
      if logarithmic then
        let freq_ratio : α := (end_freq : α) / (start_freq : α)
        ops.sin (2 * ops.pi * (start_freq : α) * (duration : α) / ops.log freq_ratio *
          (ops.rpow freq_ratio ((t : α) / (duration : α)) - 1))
      else
        let freq_slope : ℚ := (end_freq - start_freq) / duration
        ops.sin (2 * ops.pi *
          ((start_freq : α) * (t : α) + (1 / 2 : α) * (freq_slope : α) * (t : α) ^ 2))))

/-- numpy slice multiplication `xs[start : start + len(curve)] *= curve`
(producing a new list; the source works on a `copy()`). -/
def mulSegment (xs : List α) (start : ℕ) (curve : List α) : List α :=
  xs.take start ++
    (List.zipWith (fun x c => x * c) ((xs.drop start).take curve.length) curve ++
      xs.drop (start + curve.length))

/-- numpy slice assignment `xs[start : start + len(seg)] = seg` (as a new
list). -/
def setSegment (xs : List α) (start : ℕ) (seg : List α) : List α :=
  xs.take start ++ (seg ++ xs.drop (start + seg.length))

/-- The per-side fade sample count actually used by `apply_fade`:
`min(int(SAMPLE_RATE * ms / 1000), len // 2)`, clamped to `0` when
non-positive (in the source a non-positive count skips the fade). -/
def fade_samples (ms : ℚ) (ns : ℕ) : ℕ :=
  (min (pyInt ((SAMPLE_RATE : ℚ) * ms / 1000)) ((ns / 2 : ℕ) : ℤ)).toNat

/-- Source `src/generator/envelope.py`: `apply_fade(samples, fade_in_ms,
fade_out_ms)`.  `fade_*_samples = min(int(SAMPLE_RATE * ms / 1000), n // 2)`;
each side is applied only when its sample count is `> 0`; fade-in multiplies
the first samples by `np.linspace(0, 1, k)`, fade-out the last samples by
`np.linspace(1, 0, k)`. -/
def apply_fade (samples : List α) (fade_in_ms fade_out_ms : ℚ) : List α :=
  let ns := samples.length
  let fade_in_samples : ℤ :=
    min (pyInt ((SAMPLE_RATE : ℚ) * fade_in_ms / 1000)) ((ns / 2 : ℕ) : ℤ)
  let fade_out_samples : ℤ :=
    min (pyInt ((SAMPLE_RATE : ℚ) * fade_out_ms / 1000)) ((ns / 2 : ℕ) : ℤ)
  let r1 :=
    if 0 < fade_in_samples then
      mulSegment samples 0 (np_linspace 0 1 fade_in_samples.toNat)
    else samples
  if 0 < fade_out_samples then
    mulSegment r1 (ns - fade_out_samples.toNat) (np_linspace 1 0 fade_out_samples.toNat)
  else r1

/-- One envelope-writing phase of `apply_adsr`: when the phase's sample
count is `> 0` and the cursor `pos` is still inside the signal, write the
phase's segment (of length `end - pos`, `end = min(pos + count, n)`) at the
cursor and advance it; otherwise leave state unchanged.  The attack, decay
and sustain phases of the source are instances of this schema. -/
def adsr_step (cur : List α × ℕ) (n : ℕ) (cnt : ℤ) (seg : ℕ → List α) : List α × ℕ :=
  if 0 < cnt ∧ cur.2 < n then
    let e := min (cur.2 + cnt.toNat) n
    (setSegment cur.1 cur.2 (seg (e - cur.2)), e)
  else cur

/-- The ADSR envelope array of `apply_adsr`: phase sample counts
`int(SAMPLE_RATE * ms / 1000)` (sustain gets the clamped remainder), then
attack `linspace(0,1)`, decay `linspace(1,sustain)`, sustain (constant) and
release `linspace(sustain,0)` written in order over `np.zeros(n)`; the
release phase fills to the end of the signal (`end = num_samples`). -/
def adsr_envelope (n : ℕ) (attack_ms decay_ms sustain_level release_ms : ℚ) : List α :=
  let attack_samples : ℤ := pyInt ((SAMPLE_RATE : ℚ) * attack_ms / 1000)
  let decay_samples : ℤ := pyInt ((SAMPLE_RATE : ℚ) * decay_ms / 1000)
  let release_samples : ℤ := pyInt ((SAMPLE_RATE : ℚ) * release_ms / 1000)
  let sustain_samples : ℤ :=
    max 0 ((n : ℤ) - attack_samples - decay_samples - release_samples)
  let st1 := adsr_step (List.replicate n 0, 0) n attack_samples (fun k => np_linspace 0 1 k)
  let st2 := adsr_step st1 n decay_samples (fun k => np_linspace 1 (sustain_level : α) k)
  let st3 :=
    adsr_step st2 n sustain_samples (fun k => List.replicate k (sustain_level : α))
  if 0 < release_samples ∧ st3.2 < n then
    setSegment st3.1 st3.2 (np_linspace (sustain_level : α) 0 (n - st3.2))
  else st3.1

/-- Source `src/generator/envelope.py`: `apply_adsr(samples, attack_ms, decay_ms,
sustain_level, release_ms)`.  Validation of `sustain_level` first; then the
envelope is built over the signal's length and the result is the
elementwise product `result *= envelope`. -/
def apply_adsr (samples : List α) (attack_ms decay_ms sustain_level release_ms : ℚ) :
    Option (List α) :=
  if ¬(0 ≤ sustain_level ∧ sustain_level ≤ 1) then none
  else
    some (List.zipWith (fun x c => x * c) samples
      (adsr_envelope samples.length attack_ms decay_ms sustain_level release_ms))

/-- The loop of `concatenate_with_silence`: append each segment and, after
every segment but the last, the silence block. -/
def interleave (sep : List α) : List (List α) → List (List α)
  | [] => []
  | [x] => [x]
  | x :: y :: xs => x :: sep :: interleave sep (y :: xs)

/-- Source `src/generator/envelope.py`: `concatenate_with_silence(segments,
silence_ms)`.  Empty list → empty signal; `silence_ms <= 0` → plain
concatenation; otherwise `int(SAMPLE_RATE * silence_ms / 1000)` zero samples
between adjacent segments. -/
def concatenate_with_silence (segments : List (List α)) (silence_ms : ℚ) : List α :=
  if segments.isEmpty then []
  else if silence_ms ≤ 0 then segments.flatten
  else
    let silence_samples := (pyInt ((SAMPLE_RATE : ℚ) * silence_ms / 1000)).toNat
    (interleave (List.replicate silence_samples (0 : α)) segments).flatten

/-- Source `src/generator/sounds.py`: `SoundConfig` (name, description, and the
finished signal its zero-argument generator closure produces). -/
structure SoundConfig (α : Type) where
  name : String
  description : String
  generator : Option (List α)

/-- Recipe `_generate_ok`: sweep 800→1200 Hz for 0.08 s, fade 5/5 ms. -/
def generate_ok (ops : RealOps α) : Option (List α) :=
  (generate_sweep ops 800 1200 (8 / 100) false).map
    (fun wave => apply_fade wave 5 5)

/-- Recipe `_generate_ng`: sweep 600→300 Hz for 0.15 s, fade 5/10 ms. -/
def generate_ng (ops : RealOps α) : Option (List α) :=
  (generate_sweep ops 600 300 (15 / 100) false).map
    (fun wave => apply_fade wave 5 10)

/-- Recipe `_generate_warn`: 1000 Hz sine 0.05 s, fade 3/3 ms, twice with 50 ms
silence between.  (The source binds the faded beep to a local `beep` and
lists it twice; repeating the pure expression denotes the same value.) -/
def generate_warn (ops : RealOps α) : Option (List α) :=
  (generate_sine_wave ops 1000 (5 / 100)).map (fun b =>
    concatenate_with_silence [apply_fade b 3 3, apply_fade b 3 3] 50)

/-- Recipe `_generate_crit`: 400 Hz sine 0.05 s, fade 3/3 ms, three times with
30 ms silence between (same local-binding convention as `_generate_warn`). -/
def generate_crit (ops : RealOps α) : Option (List α) :=
  (generate_sine_wave ops 400 (5 / 100)).map (fun b =>
    concatenate_with_silence [apply_fade b 3 3, apply_fade b 3 3, apply_fade b 3 3] 30)

/-- Recipe `_generate_moo`: sweep 200→400 Hz for 0.15 s, fade 10/10 ms. -/
def generate_moo (ops : RealOps α) : Option (List α) :=
  (generate_sweep ops 200 400 (15 / 100) false).map
    (fun wave => apply_fade wave 10 10)

/-- Recipe `_generate_mew`: sweep 1500→2000 Hz for 0.10 s, fade 5/5 ms. -/
def generate_mew (ops : RealOps α) : Option (List α) :=
  (generate_sweep ops 1500 2000 (10 / 100) false).map
    (fun wave => apply_fade wave 5 5)

/-- Recipe `_generate_scan_ok`: 1500 Hz sine 0.05 s, fade 2/3 ms. -/
def generate_scan_ok (ops : RealOps α) : Option (List α) :=
  (generate_sine_wave ops 1500 (5 / 100)).map
    (fun wave => apply_fade wave 2 3)

/-- Recipe `_generate_scan_ng`: 300 Hz sine 0.08 s, fade 3/5 ms. -/
def generate_scan_ng (ops : RealOps α) : Option (List α) :=
  (generate_sine_wave ops 300 (8 / 100)).map
    (fun wave => apply_fade wave 3 5)

/-- Source `src/generator/sounds.py`: the `SOUND_CONFIGS` dict, as an association
list keyed by `SoundType`. -/
def SOUND_CONFIGS (ops : RealOps α) : List (SoundType × SoundConfig α) :=
  [ (SoundType.ok, ⟨"ok", "成功通知 - 明るい短音・上昇系", generate_ok ops⟩),
    (SoundType.ng, ⟨"ng", "失敗通知 - 下降・やや長め", generate_ng ops⟩),
    (SoundType.warn, ⟨"warn", "警告 - 同音2回で注意喚起", generate_warn ops⟩),
    (SoundType.crit, ⟨"crit", "緊急警告 - 低音3連で緊急性", generate_crit ops⟩),
    (SoundType.moo, ⟨"moo", "柔らかい通知 - 低域スイープ", generate_moo ops⟩),
    (SoundType.mew, ⟨"mew", "軽い通知 - 高域スイープ", generate_mew ops⟩),
    (SoundType.scan_ok, ⟨"scan_ok", "スキャン成功 - 極短で鋭い成功音", generate_scan_ok ops⟩),
    (SoundType.scan_ng, ⟨"scan_ng", "スキャン失敗 - 低短音で即時失敗", generate_scan_ng ops⟩) ]

/-- Source `src/generator/sounds.py`: `generate_sound(sound_type)`.  Unknown
identity (lookup failure against the catalog) → `ValueError`; otherwise the
recipe's generator runs (an exception it raises would propagate, modelled by
the inner `none`). -/
def generate_sound (ops : RealOps α) (sound_type : SoundType) : Except String (List α) :=
  match (SOUND_CONFIGS ops).lookup sound_type with
  | none => Except.error "Unknown sound type"
  | some config =>
    match config.generator with
    | none => Except.error "ValueError from generator"
    | some s => Except.ok s

end Field

/-- Numpy `np.clip(x, lo, hi)`. -/
def clip (x lo hi : ℚ) : ℚ := min hi (max lo x)

/-- Conversion `.astype(np.int16)`: two's-complement wrap of an integer into
`[-32768, 32767]`. -/
def toInt16 (z : ℤ) : ℤ := (z + 32768) % 65536 - 32768

/-- Source `src/utils/wav_writer.py` lines 38–39: clip to `[-1, 1]`, scale by
`MAX_AMPLITUDE`, convert to int16 (float→int truncates toward zero). -/
def quantize (samples : List ℚ) : List ℤ :=
  samples.map (fun x => toInt16 (pyInt (clip x (-1) 1 * (MAX_AMPLITUDE : ℚ))))

/-- Little-endian two-byte encoding of an int16 value (`tobytes()`). -/
def int16ToBytes (z : ℤ) : List ℕ := [(z % 65536 % 256).toNat, (z % 65536 / 256).toNat]

/-- The WAV container state produced through the `wave` module: header
fields and the raw PCM byte stream. -/
structure WavFile where
  nchannels : ℕ
  sampwidth : ℕ
  framerate : ℕ
  data : List ℕ
  deriving DecidableEq

/-- Source `src/utils/wav_writer.py`: `save_wav(samples, path)`.  Raises on an
empty signal; otherwise quantizes and writes a mono 16-bit 16000 Hz
container (filesystem aspects of the write are outside the numeric
contract and not modelled). -/
def save_wav (samples : List ℚ) : Option WavFile :=
  if samples.length = 0 then none
  else
    some ⟨CHANNELS, BIT_DEPTH / 8, SAMPLE_RATE, (quantize samples).flatMap int16ToBytes⟩

/-- The dictionary returned by `get_wav_info`. -/
structure WavInfo where
  channels : ℕ
  sample_width : ℕ
  frame_rate : ℕ
  n_frames : ℕ
  duration_sec : ℚ
  deriving DecidableEq

/-- Source `src/utils/wav_writer.py`: `get_wav_info(path)`.  The `wave` module
reports the header fields; the frame count is the byte length divided by
the frame size (`sampwidth * nchannels`); `duration_sec = n_frames /
frame_rate`. -/
def get_wav_info (f : WavFile) : WavInfo :=
  let n_frames := f.data.length / (f.sampwidth * f.nchannels)
  ⟨f.nchannels, f.sampwidth, f.framerate, n_frames, (n_frames : ℚ) / (f.framerate : ℚ)⟩

/-! ### Helper lemmas: `pyInt`, `num_samples` -/

theorem pyInt_of_nonneg {q : ℚ} (h : 0 ≤ q) : pyInt q = ⌊q⌋ := if_pos h

theorem pyInt_eq {q : ℚ} (z : ℤ) (h0 : 0 ≤ q) (h1 : (z : ℚ) ≤ q) (h2 : q < z + 1) :
    pyInt q = z := by
  rw [pyInt_of_nonneg h0, Int.floor_eq_iff.mpr ⟨h1, by exact_mod_cast h2⟩]

theorem pyInt_nonneg {q : ℚ} (h : 0 ≤ q) : 0 ≤ pyInt q := by
  rw [pyInt_of_nonneg h]
  exact Int.floor_nonneg.mpr h

theorem pyInt_nonpos {q : ℚ} (h : q ≤ 0) : pyInt q ≤ 0 := by
  unfold pyInt
  split
  · exact Int.floor_nonpos h
  · exact Int.ceil_le.mpr (by exact_mod_cast h)

theorem pyRound_up {q : ℚ} (z : ℤ) (h1 : (z : ℚ) ≤ q) (h2 : q < (z : ℚ) + 1)
    (h3 : 1 / 2 < q - (z : ℚ)) : pyRound q = z + 1 := by
  have hfl : ⌊q⌋ = z := Int.floor_eq_iff.mpr ⟨h1, by exact_mod_cast h2⟩
  have hfr : Int.fract q = q - (z : ℚ) := by rw [Int.fract, hfl]
  unfold pyRound
  rw [hfr, if_neg (not_lt.mpr (le_of_lt h3)), if_pos h3, hfl]

theorem num_samples_val (d : ℚ) (m : ℕ) (h1 : (m : ℚ) ≤ (SAMPLE_RATE : ℚ) * d)
    (h2 : (SAMPLE_RATE : ℚ) * d < (m : ℚ) + 1) : num_samples d = m := by
  unfold num_samples
  rw [pyInt_eq (m : ℤ) (le_trans (by positivity) h1) (by exact_mod_cast h1)
    (by exact_mod_cast h2)]
  exact Int.toNat_natCast m

/-! ### Helper lemmas: `List.getD` access kit -/

section GetDKit

variable {α : Type}

theorem getD_append_lt (l₁ l₂ : List α) (d : α) (i : ℕ) (h : i < l₁.length) :
    (l₁ ++ l₂).getD i d = l₁.getD i d := by
  rw [List.getD_eq_getElem _ _ (by simp; omega), List.getD_eq_getElem _ _ h,
    List.getElem_append_left h]

theorem getD_append_ge (l₁ l₂ : List α) (d : α) (i : ℕ) (h : l₁.length ≤ i) :
    (l₁ ++ l₂).getD i d = l₂.getD (i - l₁.length) d := by
  rcases lt_or_le (i - l₁.length) l₂.length with h2 | h2
  · rw [List.getD_eq_getElem _ _ (by simp; omega), List.getD_eq_getElem _ _ h2,
      List.getElem_append_right h]
  · rw [List.getD_eq_default _ _ (by simp; omega), List.getD_eq_default _ _ h2]

theorem getD_take (l : List α) (d : α) (n i : ℕ) (h : i < n) :
    (l.take n).getD i d = l.getD i d := by
  rcases lt_or_le i l.length with h2 | h2
  · rw [List.getD_eq_getElem _ _ (by simp; omega), List.getD_eq_getElem _ _ h2,
      List.getElem_take]
  · rw [List.getD_eq_default _ _ (by simp; omega), List.getD_eq_default _ _ h2]

theorem getD_drop (l : List α) (d : α) (n i : ℕ) :
    (l.drop n).getD i d = l.getD (n + i) d := by
  rcases lt_or_le (n + i) l.length with h2 | h2
  · rw [List.getD_eq_getElem _ _ (by simp; omega), List.getD_eq_getElem _ _ h2,
      List.getElem_drop]
  · rw [List.getD_eq_default _ _ (by simp; omega), List.getD_eq_default _ _ h2]

theorem getD_replicate (a d : α) (n i : ℕ) (h : i < n) :
    (List.replicate n a).getD i d = a := by
  rw [List.getD_eq_getElem _ _ (by simp; omega), List.getElem_replicate]

theorem getD_zipWith {β γ : Type} (f : α → β → γ) (u : List α) (v : List β)
    (d : α) (e : β) (g : γ) (i : ℕ) (h1 : i < u.length) (h2 : i < v.length) :
    (List.zipWith f u v).getD i g = f (u.getD i d) (v.getD i e) := by
  rw [List.getD_eq_getElem _ _ (by simp [List.length_zipWith]; omega),
    List.getD_eq_getElem _ _ h1, List.getD_eq_getElem _ _ h2, List.getElem_zipWith]

theorem setSegment_subset [LinearOrderedField α] (xs seg : List α) (p : ℕ) {y : α}
    (hy : y ∈ setSegment xs p seg) : y ∈ xs ∨ y ∈ seg := by
  unfold setSegment at hy
  rcases List.mem_append.mp hy with h | h
  · exact Or.inl (List.take_subset _ _ h)
  · rcases List.mem_append.mp h with h | h
    · exact Or.inr h
    · exact Or.inl (List.drop_subset _ _ h)

end GetDKit

/-! ### Helper lemmas: `np_linspace`, `t_grid` -/

section FieldLemmas

variable {α : Type} [LinearOrderedField α]

theorem length_np_linspace (a b : α) (k : ℕ) : (np_linspace a b k).length = k := by
  simp [np_linspace]

theorem getD_np_linspace (a b : α) (d : α) (k j : ℕ) (h : j < k) :
    (np_linspace a b k).getD j d = a + (b - a) * (j : α) / ((k : α) - 1) := by
  rw [List.getD_eq_getElem _ _ (by simp [length_np_linspace]; omega)]
  simp only [np_linspace, List.getElem_map, List.getElem_range]

theorem np_linspace_mem_01 {a b : α} (ha0 : 0 ≤ a) (ha1 : a ≤ 1) (hb0 : 0 ≤ b)
    (hb1 : b ≤ 1) {k : ℕ} {x : α} (hx : x ∈ np_linspace a b k) : 0 ≤ x ∧ x ≤ 1 := by
  simp only [np_linspace, List.mem_map, List.mem_range] at hx
  obtain ⟨j, hj, rfl⟩ := hx
  rcases Nat.eq_or_lt_of_le (Nat.one_le_iff_ne_zero.mpr (by omega : k ≠ 0)) with hk | hk
  · have hz : ((k : α) - 1) = 0 := by
      rw [← hk]; norm_num
    rw [hz, div_zero]
    constructor <;> linarith
  · have hkpos : (0 : α) < (k : α) - 1 := by
      have h3 : (1 : α) < (k : α) := by exact_mod_cast hk
      linarith
    have hjle : (j : α) ≤ (k : α) - 1 := by
      have h2 : (j : α) + 1 ≤ (k : α) := by exact_mod_cast Nat.succ_le_of_lt hj
      linarith
    have hr0 : 0 ≤ (j : α) / ((k : α) - 1) := by positivity
    have hr1 : (j : α) / ((k : α) - 1) ≤ 1 := by
      rw [div_le_one hkpos]; exact hjle
    rw [mul_div_assoc]
    set r := (j : α) / ((k : α) - 1) with hrdef
    constructor
    · nlinarith [mul_nonneg ha0 (sub_nonneg.mpr hr1), mul_nonneg hb0 hr0]
    · nlinarith [mul_nonneg (sub_nonneg.mpr ha1) (sub_nonneg.mpr hr1),
        mul_nonneg (sub_nonneg.mpr hb1) hr0]

theorem length_t_grid (d : ℚ) (n : ℕ) : (t_grid d n).length = n := by
  simp [t_grid]

theorem getD_t_grid (du d : ℚ) (n i : ℕ) (h : i < n) :
    (t_grid du n).getD i d = (i : ℚ) * du / (n : ℚ) := by
  rw [List.getD_eq_getElem _ _ (by simp [length_t_grid]; omega)]
  simp only [t_grid, List.getElem_map, List.getElem_range]

theorem getElem_t_grid (du : ℚ) (n i : ℕ) (h : i < (t_grid du n).length) :
    (t_grid du n)[i] = (i : ℚ) * du / (n : ℚ) := by
  simp only [t_grid, List.getElem_map, List.getElem_range]

/-! ### Helper lemmas: `mulSegment` and `setSegment` -/

theorem mulSegment_length (xs curve : List α) (p : ℕ)
    (hfit : p + curve.length ≤ xs.length) :
    (mulSegment xs p curve).length = xs.length := by
  simp only [mulSegment, List.length_append, List.length_take, List.length_drop,
    List.length_zipWith]
  omega

theorem mulSegment_getD_lt (xs curve : List α) (d : α) (p i : ℕ)
    (hfit : p + curve.length ≤ xs.length) (hi : i < p) :
    (mulSegment xs p curve).getD i d = xs.getD i d := by
  unfold mulSegment
  rw [getD_append_lt _ _ _ _ (by simp [List.length_take]; omega), getD_take _ _ _ _ hi]

theorem mulSegment_getD_mid (xs curve : List α) (d : α) (p i : ℕ)
    (hfit : p + curve.length ≤ xs.length) (h1 : p ≤ i) (h2 : i < p + curve.length) :
    (mulSegment xs p curve).getD i d = xs.getD i d * curve.getD (i - p) d := by
  unfold mulSegment
  have htk : (List.take p xs).length = p := by simp [List.length_take]; omega
  rw [getD_append_ge _ _ _ _ (by rw [htk]; omega), htk,
    getD_append_lt _ _ _ _ (by simp [List.length_zipWith, List.length_take, List.length_drop]; omega),
    getD_zipWith _ _ _ d d _ _ (by simp [List.length_take, List.length_drop]; omega) (by omega),
    getD_take _ _ _ _ (by omega), getD_drop]
  rw [show p + (i - p) = i by omega]

theorem mulSegment_getD_ge (xs curve : List α) (d : α) (p i : ℕ)
    (hfit : p + curve.length ≤ xs.length) (h1 : p + curve.length ≤ i) :
    (mulSegment xs p curve).getD i d = xs.getD i d := by
  unfold mulSegment
  have htk : (List.take p xs).length = p := by simp [List.length_take]; omega
  have hzp : (List.zipWith (fun x c => x * c) ((xs.drop p).take curve.length) curve).length
      = curve.length := by
    simp [List.length_zipWith, List.length_take, List.length_drop]
    omega
  rw [getD_append_ge _ _ _ _ (by rw [htk]; omega), htk,
    getD_append_ge _ _ _ _ (by rw [hzp]; omega), hzp, getD_drop]
  rw [show p + curve.length + (i - p - curve.length) = i by omega]

end FieldLemmas

/-! ### Helper lemmas: `apply_fade` -/

theorem fade_samples_le (ms : ℚ) (ns : ℕ) : fade_samples ms ns ≤ ns / 2 := by
  unfold fade_samples
  calc (min (pyInt ((SAMPLE_RATE : ℚ) * ms / 1000)) ((ns / 2 : ℕ) : ℤ)).toNat
      ≤ ((ns / 2 : ℕ) : ℤ).toNat := Int.toNat_le_toNat (min_le_right _ _)
    _ = ns / 2 := Int.toNat_natCast _

section FadeMaster

variable {α : Type} [LinearOrderedField α]

theorem apply_fade_length (xs : List α) (fi fo : ℚ) :
    (apply_fade xs fi fo).length = xs.length := by
  have hk1 := fade_samples_le fi xs.length
  have hk2 := fade_samples_le fo xs.length
  unfold fade_samples at hk1 hk2
  unfold apply_fade
  set ns := xs.length with hns
  set fis : ℤ := min (pyInt ((SAMPLE_RATE : ℚ) * fi / 1000)) ((ns / 2 : ℕ) : ℤ) with hfis
  set fos : ℤ := min (pyInt ((SAMPLE_RATE : ℚ) * fo / 1000)) ((ns / 2 : ℕ) : ℤ) with hfos
  by_cases h1 : 0 < fis <;> by_cases h2 : 0 < fos <;>
    simp only [if_pos, if_neg, h1, h2, if_true, if_false]
  · have fit1 : 0 + (np_linspace (0 : α) 1 fis.toNat).length ≤ ns := by
      rw [length_np_linspace]; omega
    have hr1len : (mulSegment xs 0 (np_linspace (0 : α) 1 fis.toNat)).length = ns :=
      mulSegment_length _ _ _ fit1
    have fit2 : (ns - fos.toNat) + (np_linspace (1 : α) 0 fos.toNat).length ≤
        (mulSegment xs 0 (np_linspace (0 : α) 1 fis.toNat)).length := by
      rw [length_np_linspace, hr1len]; omega
    rw [mulSegment_length _ _ _ fit2, hr1len]
  · exact mulSegment_length _ _ _ (by rw [length_np_linspace]; omega)
  · exact mulSegment_length _ _ _ (by rw [length_np_linspace]; omega)

theorem apply_fade_getD (xs : List α) (fi fo : ℚ) (i : ℕ) :
    (apply_fade xs fi fo).getD i 0 =
      if i < fade_samples fi xs.length then
        xs.getD i 0 * (np_linspace 0 1 (fade_samples fi xs.length)).getD i 0
      else if xs.length - fade_samples fo xs.length ≤ i ∧ i < xs.length then
        xs.getD i 0 *
          (np_linspace 1 0 (fade_samples fo xs.length)).getD
            (i - (xs.length - fade_samples fo xs.length)) 0
      else xs.getD i 0 := by
  have hk1 := fade_samples_le fi xs.length
  have hk2 := fade_samples_le fo xs.length
  unfold apply_fade fade_samples
  unfold fade_samples at hk1 hk2
  set ns := xs.length with hns
  set fis : ℤ := min (pyInt ((SAMPLE_RATE : ℚ) * fi / 1000)) ((ns / 2 : ℕ) : ℤ) with hfis
  set fos : ℤ := min (pyInt ((SAMPLE_RATE : ℚ) * fo / 1000)) ((ns / 2 : ℕ) : ℤ) with hfos
  by_cases h1 : 0 < fis <;> by_cases h2 : 0 < fos <;>
    simp only [if_pos, if_neg, h1, h2, if_true, if_false]
  · -- both fades active
    have fit1 : 0 + (np_linspace (0 : α) 1 fis.toNat).length ≤ ns := by
      rw [length_np_linspace]; omega
    have hr1len : (mulSegment xs 0 (np_linspace (0 : α) 1 fis.toNat)).length = ns :=
      mulSegment_length _ _ _ fit1
    have fit2 : (ns - fos.toNat) + (np_linspace (1 : α) 0 fos.toNat).length ≤
        (mulSegment xs 0 (np_linspace (0 : α) 1 fis.toNat)).length := by
      rw [length_np_linspace, hr1len]
      have : fos.toNat ≤ ns / 2 := hk2
      omega
    have hkk : fis.toNat ≤ ns - fos.toNat := by omega
    rcases Nat.lt_or_ge i fis.toNat with hi1 | hi1
    · rw [mulSegment_getD_lt _ _ _ _ _ fit2 (by omega),
        mulSegment_getD_mid _ _ _ _ _ fit1 (by omega) (by rw [length_np_linspace]; omega),
        if_pos hi1, Nat.sub_zero]
    · rcases Nat.lt_or_ge i (ns - fos.toNat) with hi2 | hi2
      · rw [mulSegment_getD_lt _ _ _ _ _ fit2 hi2,
          mulSegment_getD_ge _ _ _ _ _ fit1 (by rw [length_np_linspace]; omega),
          if_neg (by omega), if_neg (by omega)]
      · rcases Nat.lt_or_ge i ns with hi3 | hi3
        · rw [mulSegment_getD_mid _ _ _ _ _ fit2 (by omega)
            (by rw [length_np_linspace]; omega),
            mulSegment_getD_ge _ _ _ _ _ fit1 (by rw [length_np_linspace]; omega),
            if_neg (by omega), if_pos ⟨hi2, hi3⟩]
        · rw [mulSegment_getD_ge _ _ _ _ _ fit2 (by rw [length_np_linspace]; omega),
            mulSegment_getD_ge _ _ _ _ _ fit1 (by rw [length_np_linspace]; omega),
            if_neg (by omega), if_neg (by omega)]
  · -- fade-in only
    have fit1 : 0 + (np_linspace (0 : α) 1 fis.toNat).length ≤ ns := by
      rw [length_np_linspace]; omega
    have hz2 : fos.toNat = 0 := Int.toNat_of_nonpos (by omega)
    rcases Nat.lt_or_ge i fis.toNat with hi1 | hi1
    · rw [mulSegment_getD_mid _ _ _ _ _ fit1 (by omega)
        (by rw [length_np_linspace]; omega), if_pos hi1, Nat.sub_zero]
    · rw [mulSegment_getD_ge _ _ _ _ _ fit1 (by rw [length_np_linspace]; omega),
        if_neg (by omega), if_neg (by omega)]
  · -- fade-out only
    have hz1 : fis.toNat = 0 := Int.toNat_of_nonpos (by omega)
    have fit2 : (ns - fos.toNat) + (np_linspace (1 : α) 0 fos.toNat).length ≤ ns := by
      rw [length_np_linspace]
      have : fos.toNat ≤ ns / 2 := hk2
      omega
    rcases Nat.lt_or_ge i (ns - fos.toNat) with hi2 | hi2
    · rw [mulSegment_getD_lt _ _ _ _ _ fit2 hi2, if_neg (by omega), if_neg (by omega)]
    · rcases Nat.lt_or_ge i ns with hi3 | hi3
      · rw [mulSegment_getD_mid _ _ _ _ _ fit2 (by omega)
          (by rw [length_np_linspace]; omega), if_neg (by omega), if_pos ⟨hi2, hi3⟩]
      · rw [mulSegment_getD_ge _ _ _ _ _ fit2 (by rw [length_np_linspace]; omega),
          if_neg (by omega), if_neg (by omega)]
  · -- no fade
    have hz1 : fis.toNat = 0 := Int.toNat_of_nonpos (by omega)
    have hz2 : fos.toNat = 0 := Int.toNat_of_nonpos (by omega)
    rw [if_neg (by omega), if_neg (by omega)]

end FadeMaster

/-! ### Helper lemmas: `apply_adsr` -/

section AdsrLemmas

variable {α : Type} [LinearOrderedField α]

theorem adsr_step_mem {P : α → Prop} {cur : List α × ℕ} {n : ℕ} {cnt : ℤ}
    {seg : ℕ → List α} (hcur : ∀ c ∈ cur.1, P c) (hseg : ∀ k, ∀ c ∈ seg k, P c) :
    ∀ c ∈ (adsr_step cur n cnt seg).1, P c := by
  intro c hc
  unfold adsr_step at hc
  split at hc
  · rcases setSegment_subset _ _ _ hc with h | h
    · exact hcur _ h
    · exact hseg _ _ h
  · exact hcur _ hc

theorem adsr_envelope_mem {s : ℚ} (hs0 : 0 ≤ s) (hs1 : s ≤ 1) (n : ℕ) (a dm r : ℚ) :
    ∀ c ∈ (adsr_envelope n a dm s r : List α), 0 ≤ c ∧ c ≤ 1 := by
  have hsc0 : (0 : α) ≤ (s : α) := by exact_mod_cast hs0
  have hsc1 : ((s : ℚ) : α) ≤ 1 := by exact_mod_cast hs1
  have base : ∀ c ∈ (List.replicate n (0 : α)), 0 ≤ c ∧ c ≤ 1 := by
    intro c hc
    rw [List.eq_of_mem_replicate hc]
    norm_num
  have hseg1 : ∀ k : ℕ, ∀ c ∈ np_linspace (0 : α) 1 k, 0 ≤ c ∧ c ≤ 1 :=
    fun k c hc => np_linspace_mem_01 le_rfl zero_le_one zero_le_one le_rfl hc
  have hseg2 : ∀ k : ℕ, ∀ c ∈ np_linspace (1 : α) (s : α) k, 0 ≤ c ∧ c ≤ 1 :=
    fun k c hc => np_linspace_mem_01 zero_le_one le_rfl hsc0 hsc1 hc
  have hseg3 : ∀ k : ℕ, ∀ c ∈ List.replicate k ((s : ℚ) : α), 0 ≤ c ∧ c ≤ 1 := by
    intro k c hc
    rw [List.eq_of_mem_replicate hc]
    exact ⟨hsc0, hsc1⟩
  have hseg4 : ∀ k : ℕ, ∀ c ∈ np_linspace ((s : ℚ) : α) 0 k, 0 ≤ c ∧ c ≤ 1 :=
    fun k c hc => np_linspace_mem_01 hsc0 hsc1 le_rfl zero_le_one hc
  intro c hc
  unfold adsr_envelope at hc
  simp only [] at hc
  split at hc
  · rcases setSegment_subset _ _ _ hc with h | h
    · exact adsr_step_mem (adsr_step_mem (adsr_step_mem base hseg1) hseg2) hseg3 _ h
    · exact hseg4 _ _ h
  · exact adsr_step_mem (adsr_step_mem (adsr_step_mem base hseg1) hseg2) hseg3 _ hc

theorem zipWith_mul_getD_abs (u v : List α) (hv : ∀ c ∈ v, 0 ≤ c ∧ c ≤ 1) (i : ℕ) :
    |(List.zipWith (fun x c => x * c) u v).getD i 0| ≤ |u.getD i 0| := by
  rcases Nat.lt_or_ge i (List.zipWith (fun x c => x * c) u v).length with h | h
  · have h1 : i < u.length := by simp [List.length_zipWith] at h; omega
    have h2 : i < v.length := by simp [List.length_zipWith] at h; omega
    rw [getD_zipWith _ _ _ 0 0 _ _ h1 h2]
    have hmem : v.getD i 0 ∈ v := by
      rw [List.getD_eq_getElem _ _ h2]
      exact List.getElem_mem _
    obtain ⟨hc0, hc1⟩ := hv _ hmem
    rw [abs_mul]
    calc |u.getD i 0| * |v.getD i 0| ≤ |u.getD i 0| * 1 := by
          refine mul_le_mul_of_nonneg_left ?_ (abs_nonneg _)
          rw [abs_of_nonneg hc0]
          exact hc1
      _ = |u.getD i 0| := mul_one _
  · rw [List.getD_eq_default _ _ h, abs_zero]
    exact abs_nonneg _

theorem apply_adsr_getD_abs (xs : List α) (a dm s r : ℚ) (i : ℕ) :
    |((apply_adsr xs a dm s r).getD []).getD i 0| ≤ |xs.getD i 0| := by
  unfold apply_adsr
  split
  · simp only [Option.getD_none, List.getD_nil]
    rw [abs_zero]
    exact abs_nonneg _
  · next h =>
    rw [not_not] at h
    obtain ⟨hs0, hs1⟩ := h
    simp only [Option.getD_some]
    exact zipWith_mul_getD_abs _ _ (adsr_envelope_mem hs0 hs1 _ _ _ _) i

end AdsrLemmas

/-! ### Helper lemmas: `concatenate_with_silence` -/

theorem interleave_mem {α : Type} {sep : List α} {segs : List (List α)} {l : List α}
    (h : l ∈ interleave sep segs) : l ∈ segs ∨ l = sep := by
  induction segs with
  | nil => simp [interleave] at h
  | cons x xs ih =>
    cases xs with
    | nil =>
      simp [interleave] at h
      simp [h]
    | cons y ys =>
      unfold interleave at h
      rcases List.mem_cons.mp h with rfl | h
      · exact Or.inl (List.mem_cons_self _ _)
      · rcases List.mem_cons.mp h with rfl | h
        · exact Or.inr rfl
        · rcases ih h with h2 | h2
          · exact Or.inl (List.mem_cons_of_mem _ h2)
          · exact Or.inr h2

section ConcatLemmas

variable {α : Type} [LinearOrderedField α]

theorem concatenate_mem {segs : List (List α)} {ms : ℚ} {x : α}
    (hx : x ∈ concatenate_with_silence segs ms) : (∃ l ∈ segs, x ∈ l) ∨ x = 0 := by
  unfold concatenate_with_silence at hx
  split at hx
  · simp at hx
  · split at hx
    · rcases List.mem_flatten.mp hx with ⟨l, hl, hxl⟩
      exact Or.inl ⟨l, hl, hxl⟩
    · rcases List.mem_flatten.mp hx with ⟨l, hl, hxl⟩
      rcases interleave_mem hl with h | rfl
      · exact Or.inl ⟨l, h, hxl⟩
      · exact Or.inr (List.eq_of_mem_replicate hxl)

theorem concatenate_empty (ms : ℚ) : concatenate_with_silence ([] : List (List α)) ms = [] := by
  unfold concatenate_with_silence
  rfl

theorem concatenate_nonpos (segs : List (List α)) {ms : ℚ} (hms : ms ≤ 0) :
    concatenate_with_silence segs ms = segs.flatten := by
  unfold concatenate_with_silence
  by_cases h : segs.isEmpty = true
  · rw [if_pos h, List.isEmpty_iff.mp h]
    rfl
  · rw [if_neg h, if_pos hms]

theorem concatenate_single (a : List α) {ms : ℚ} (hms : 0 < ms) :
    concatenate_with_silence [a] ms = a := by
  unfold concatenate_with_silence
  rw [if_neg (by simp), if_neg (not_le.mpr hms)]
  simp [interleave]

theorem concatenate_cons_cons (a b : List α) (rest : List (List α)) {ms : ℚ}
    (hms : 0 < ms) :
    concatenate_with_silence (a :: b :: rest) ms =
      a ++ (List.replicate ((pyInt ((SAMPLE_RATE : ℚ) * ms / 1000)).toNat) 0 ++
        concatenate_with_silence (b :: rest) ms) := by
  unfold concatenate_with_silence
  rw [if_neg (by simp), if_neg (not_le.mpr hms), if_neg (by simp), if_neg (not_le.mpr hms)]
  simp only [interleave, List.flatten_cons]

theorem concatenate_length_pos (segs : List (List α)) {ms : ℚ} (hms : 0 < ms) :
    (concatenate_with_silence segs ms).length =
      (segs.map List.length).sum +
        (segs.length - 1) * (pyInt ((SAMPLE_RATE : ℚ) * ms / 1000)).toNat := by
  induction segs with
  | nil => simp [concatenate_empty]
  | cons a rest ih =>
    cases rest with
    | nil => simp [concatenate_single a hms]
    | cons b rest2 =>
      rw [concatenate_cons_cons a b rest2 hms, List.length_append, List.length_append,
        List.length_replicate, ih]
      simp only [List.map_cons, List.sum_cons, List.length_cons, Nat.add_sub_cancel]
      ring

theorem concatenate_two (a b : List α) {ms : ℚ} (hms : 0 < ms) :
    concatenate_with_silence [a, b] ms =
      a ++ (List.replicate ((pyInt ((SAMPLE_RATE : ℚ) * ms / 1000)).toNat) (0 : α) ++ b) := by
  unfold concatenate_with_silence
  rw [if_neg (by simp), if_neg (not_le.mpr hms)]
  simp [interleave]

theorem concatenate_three (a b c : List α) {ms : ℚ} (hms : 0 < ms) :
    concatenate_with_silence [a, b, c] ms =
      a ++ (List.replicate ((pyInt ((SAMPLE_RATE : ℚ) * ms / 1000)).toNat) (0 : α) ++
        (b ++ (List.replicate ((pyInt ((SAMPLE_RATE : ℚ) * ms / 1000)).toNat) (0 : α) ++ c))) := by
  unfold concatenate_with_silence
  rw [if_neg (by simp), if_neg (not_le.mpr hms)]
  simp [interleave]

end ConcatLemmas

/-! ### Helper lemmas: waveform generators -/

section WaveLemmas

variable {α : Type} [LinearOrderedField α]

theorem generate_sine_wave_eq (ops : RealOps α) {f d : ℚ} (hf : 0 < f) (hd : 0 < d) :
    generate_sine_wave ops f d =
      some ((t_grid d (num_samples d)).map
        (fun t : ℚ => ops.sin (2 * ops.pi * (f : α) * (t : α)))) := by
  unfold generate_sine_wave
  rw [if_neg (not_le.mpr hf), if_neg (not_le.mpr hd)]

theorem generate_square_wave_eq {f d duty : ℚ} (hf : 0 < f) (hd : 0 < d)
    (h1 : 0 < duty) (h2 : duty < 1) :
    generate_square_wave f d duty =
      some ((t_grid d (num_samples d)).map
        (fun t : ℚ => if Int.fract (f * t) < duty then 1 else -1)) := by
  unfold generate_square_wave
  rw [if_neg (not_le.mpr hf), if_neg (not_le.mpr hd), if_neg (not_not_intro ⟨h1, h2⟩)]

theorem generate_sawtooth_wave_eq {f d : ℚ} (hf : 0 < f) (hd : 0 < d) :
    generate_sawtooth_wave f d =
      some ((t_grid d (num_samples d)).map (fun t : ℚ => 2 * Int.fract (f * t) - 1)) := by
  unfold generate_sawtooth_wave
  rw [if_neg (not_le.mpr hf), if_neg (not_le.mpr hd)]

theorem generate_sweep_eq (ops : RealOps α) {sf ef d : ℚ} (b : Bool)
    (hs : 0 < sf) (he : 0 < ef) (hd : 0 < d) :
    generate_sweep ops sf ef d b =
      some ((t_grid d (num_samples d)).map (fun t : ℚ =>
        if b then
          ops.sin (2 * ops.pi * (sf : α) * (d : α) / ops.log ((ef : α) / (sf : α)) *
            (ops.rpow ((ef : α) / (sf : α)) ((t : α) / (d : α)) - 1))
        else
          ops.sin (2 * ops.pi *
            ((sf : α) * (t : α) +
              (1 / 2 : α) * (((ef - sf) / d : ℚ) : α) * (t : α) ^ 2)))) := by
  unfold generate_sweep
  rw [if_neg (not_le.mpr hs), if_neg (not_le.mpr he), if_neg (not_le.mpr hd)]

/-- Any `getD` read of a list whose members lie in `[-1, 1]` lies in
`[-1, 1]` (the default `0` included). -/
theorem getD_bounds_of_mem {l : List α} (h : ∀ x ∈ l, -1 ≤ x ∧ x ≤ 1) (i : ℕ) :
    -1 ≤ l.getD i 0 ∧ l.getD i 0 ≤ 1 := by
  rcases Nat.lt_or_ge i l.length with hi | hi
  · rw [List.getD_eq_getElem _ _ hi]
    exact h _ (List.getElem_mem _)
  · rw [List.getD_eq_default _ _ hi]
    norm_num

end WaveLemmas

theorem generate_sine_wave_mem_bounds (f d : ℚ) {x : ℝ}
    (hx : x ∈ (generate_sine_wave ⟨Real.sin, Real.log, Real.rpow, Real.pi⟩ f d).getD []) :
    -1 ≤ x ∧ x ≤ 1 := by
  unfold generate_sine_wave at hx
  split at hx
  · simp at hx
  · split at hx
    · simp at hx
    · simp only [Option.getD_some] at hx
      obtain ⟨t, ht, rfl⟩ := List.mem_map.mp hx
      exact ⟨Real.neg_one_le_sin _, Real.sin_le_one _⟩

theorem generate_sweep_mem_bounds (sf ef d : ℚ) (b : Bool) {x : ℝ}
    (hx : x ∈ (generate_sweep ⟨Real.sin, Real.log, Real.rpow, Real.pi⟩ sf ef d b).getD []) :
    -1 ≤ x ∧ x ≤ 1 := by
  unfold generate_sweep at hx
  split at hx
  · simp at hx
  · split at hx
    · simp at hx
    · split at hx
      · simp at hx
      · simp only [Option.getD_some] at hx
        obtain ⟨t, ht, rfl⟩ := List.mem_map.mp hx
        cases b
        · exact ⟨Real.neg_one_le_sin _, Real.sin_le_one _⟩
        · exact ⟨Real.neg_one_le_sin _, Real.sin_le_one _⟩

theorem generate_square_wave_mem_values (f d duty : ℚ) {x : ℚ}
    (hx : x ∈ (generate_square_wave f d duty).getD []) : x = 1 ∨ x = -1 := by
  unfold generate_square_wave at hx
  split at hx
  · simp at hx
  · split at hx
    · simp at hx
    · split at hx
      · simp at hx
      · simp only [Option.getD_some] at hx
        obtain ⟨t, ht, rfl⟩ := List.mem_map.mp hx
        split
        · exact Or.inl rfl
        · exact Or.inr rfl

theorem generate_sawtooth_wave_mem_bounds (f d : ℚ) {x : ℚ}
    (hx : x ∈ (generate_sawtooth_wave f d).getD []) : -1 ≤ x ∧ x < 1 := by
  unfold generate_sawtooth_wave at hx
  split at hx
  · simp at hx
  · split at hx
    · simp at hx
    · simp only [Option.getD_some] at hx
      obtain ⟨t, ht, rfl⟩ := List.mem_map.mp hx
      have h0 := Int.fract_nonneg (f * t)
      have h1 := Int.fract_lt_one (f * t)
      constructor <;> linarith

/-! ### Pointwise norm bound for `apply_fade` -/

section FadeAbs

variable {α : Type} [LinearOrderedField α]

theorem mul_abs_le_of_01 (x c : α) (h0 : 0 ≤ c) (h1 : c ≤ 1) : |x * c| ≤ |x| := by
  rw [abs_mul]
  calc |x| * |c| ≤ |x| * 1 := by
        refine mul_le_mul_of_nonneg_left ?_ (abs_nonneg _)
        rw [abs_of_nonneg h0]
        exact h1
    _ = |x| := mul_one _

theorem apply_fade_getD_abs (xs : List α) (fi fo : ℚ) (i : ℕ) :
    |(apply_fade xs fi fo).getD i 0| ≤ |xs.getD i 0| := by
  have hk2 := fade_samples_le fo xs.length
  rw [apply_fade_getD]
  split
  · next h =>
    have hmem : (np_linspace (0 : α) 1 (fade_samples fi xs.length)).getD i 0 ∈
        np_linspace (0 : α) 1 (fade_samples fi xs.length) := by
      rw [List.getD_eq_getElem _ _ (by rw [length_np_linspace]; omega)]
      exact List.getElem_mem _
    obtain ⟨hc0, hc1⟩ := np_linspace_mem_01 le_rfl zero_le_one zero_le_one le_rfl hmem
    exact mul_abs_le_of_01 _ _ hc0 hc1
  · split
    · next h =>
      obtain ⟨h1, h2⟩ := h
      have hmem : (np_linspace (1 : α) 0 (fade_samples fo xs.length)).getD
          (i - (xs.length - fade_samples fo xs.length)) 0 ∈
          np_linspace (1 : α) 0 (fade_samples fo xs.length) := by
        rw [List.getD_eq_getElem _ _ (by rw [length_np_linspace]; omega)]
        exact List.getElem_mem _
      obtain ⟨hc0, hc1⟩ := np_linspace_mem_01 zero_le_one le_rfl le_rfl zero_le_one hmem
      exact mul_abs_le_of_01 _ _ hc0 hc1
    · exact le_rfl

end FadeAbs

/-! ### Concrete sample counts used by the sound catalog -/

theorem num_samples_5_100 : num_samples (5 / 100) = 800 :=
  num_samples_val _ _ (by norm_num [SAMPLE_RATE]) (by norm_num [SAMPLE_RATE])

theorem num_samples_8_100 : num_samples (8 / 100) = 1280 :=
  num_samples_val _ _ (by norm_num [SAMPLE_RATE]) (by norm_num [SAMPLE_RATE])

theorem num_samples_10_100 : num_samples (10 / 100) = 1600 :=
  num_samples_val _ _ (by norm_num [SAMPLE_RATE]) (by norm_num [SAMPLE_RATE])

theorem num_samples_15_100 : num_samples (15 / 100) = 2400 :=
  num_samples_val _ _ (by norm_num [SAMPLE_RATE]) (by norm_num [SAMPLE_RATE])

theorem silence_50 : (pyInt ((SAMPLE_RATE : ℚ) * 50 / 1000)).toNat = 800 := by
  rw [pyInt_eq 800 (by norm_num [SAMPLE_RATE]) (by norm_num [SAMPLE_RATE])
    (by norm_num [SAMPLE_RATE])]
  rfl

theorem silence_30 : (pyInt ((SAMPLE_RATE : ℚ) * 30 / 1000)).toNat = 480 := by
  rw [pyInt_eq 480 (by norm_num [SAMPLE_RATE]) (by norm_num [SAMPLE_RATE])
    (by norm_num [SAMPLE_RATE])]
  rfl

/-! ### Per-sound existence, length and range lemmas -/

section SoundLemmas

theorem apply_fade_mem_bounds {α : Type} [LinearOrderedField α] {xs : List α}
    (h : ∀ x ∈ xs, -1 ≤ x ∧ x ≤ 1) {fi fo : ℚ} {y : α}
    (hy : y ∈ apply_fade xs fi fo) : -1 ≤ y ∧ y ≤ 1 := by
  obtain ⟨i, hi, rfl⟩ := List.mem_iff_getElem.mp hy
  rw [← List.getD_eq_getElem _ 0 hi]
  have habs := apply_fade_getD_abs xs fi fo i
  have hb : |xs.getD i 0| ≤ 1 := abs_le.mpr (getD_bounds_of_mem h i)
  exact abs_le.mp (le_trans habs hb)

theorem sweep_fade_exists (sf ef d fi fo : ℚ) (hs : 0 < sf) (he : 0 < ef) (hd : 0 < d) :
    ∃ s : List ℝ,
      (generate_sweep ⟨Real.sin, Real.log, Real.rpow, Real.pi⟩ sf ef d false).map
          (fun wave => apply_fade wave fi fo) = some s ∧
        s.length = num_samples d ∧ ∀ x ∈ s, -1 ≤ x ∧ x ≤ 1 := by
  have hw : ∀ y ∈ ((generate_sweep (⟨Real.sin, Real.log, Real.rpow, Real.pi⟩ : RealOps ℝ)
      sf ef d false).getD []), -1 ≤ y ∧ y ≤ 1 :=
    fun y hy => generate_sweep_mem_bounds sf ef d false hy
  rw [generate_sweep_eq _ false hs he hd] at hw ⊢
  simp only [Option.getD_some] at hw
  simp only [Option.map_some']
  refine ⟨_, rfl, ?_, ?_⟩
  · rw [apply_fade_length, List.length_map, length_t_grid]
  · intro x hx
    exact apply_fade_mem_bounds hw hx

theorem sine_fade_exists (f d fi fo : ℚ) (hf : 0 < f) (hd : 0 < d) :
    ∃ s : List ℝ,
      (generate_sine_wave ⟨Real.sin, Real.log, Real.rpow, Real.pi⟩ f d).map
          (fun wave => apply_fade wave fi fo) = some s ∧
        s.length = num_samples d ∧ ∀ x ∈ s, -1 ≤ x ∧ x ≤ 1 := by
  have hw : ∀ y ∈ ((generate_sine_wave (⟨Real.sin, Real.log, Real.rpow, Real.pi⟩ : RealOps ℝ)
      f d).getD []), -1 ≤ y ∧ y ≤ 1 :=
    fun y hy => generate_sine_wave_mem_bounds f d hy
  rw [generate_sine_wave_eq _ hf hd] at hw ⊢
  simp only [Option.getD_some] at hw
  simp only [Option.map_some']
  refine ⟨_, rfl, ?_, ?_⟩
  · rw [apply_fade_length, List.length_map, length_t_grid]
  · intro x hx
    exact apply_fade_mem_bounds hw hx

theorem generate_ok_spec :
    ∃ s : List ℝ, generate_ok ⟨Real.sin, Real.log, Real.rpow, Real.pi⟩ = some s ∧
      s.length = 1280 ∧ ∀ x ∈ s, -1 ≤ x ∧ x ≤ 1 := by
  obtain ⟨s, hs, hlen, hb⟩ :=
    sweep_fade_exists 800 1200 (8 / 100) 5 5 (by norm_num) (by norm_num) (by norm_num)
  exact ⟨s, hs, by rw [hlen, num_samples_8_100], hb⟩

theorem generate_ng_spec :
    ∃ s : List ℝ, generate_ng ⟨Real.sin, Real.log, Real.rpow, Real.pi⟩ = some s ∧
      s.length = 2400 ∧ ∀ x ∈ s, -1 ≤ x ∧ x ≤ 1 := by
  obtain ⟨s, hs, hlen, hb⟩ :=
    sweep_fade_exists 600 300 (15 / 100) 5 10 (by norm_num) (by norm_num) (by norm_num)
  exact ⟨s, hs, by rw [hlen, num_samples_15_100], hb⟩

theorem generate_moo_spec :
    ∃ s : List ℝ, generate_moo ⟨Real.sin, Real.log, Real.rpow, Real.pi⟩ = some s ∧
      s.length = 2400 ∧ ∀ x ∈ s, -1 ≤ x ∧ x ≤ 1 := by
  obtain ⟨s, hs, hlen, hb⟩ :=
    sweep_fade_exists 200 400 (15 / 100) 10 10 (by norm_num) (by norm_num) (by norm_num)
  exact ⟨s, hs, by rw [hlen, num_samples_15_100], hb⟩

theorem generate_mew_spec :
    ∃ s : List ℝ, generate_mew ⟨Real.sin, Real.log, Real.rpow, Real.pi⟩ = some s ∧
      s.length = 1600 ∧ ∀ x ∈ s, -1 ≤ x ∧ x ≤ 1 := by
  obtain ⟨s, hs, hlen, hb⟩ :=
    sweep_fade_exists 1500 2000 (10 / 100) 5 5 (by norm_num) (by norm_num) (by norm_num)
  exact ⟨s, hs, by rw [hlen, num_samples_10_100], hb⟩

theorem generate_scan_ok_spec :
    ∃ s : List ℝ, generate_scan_ok ⟨Real.sin, Real.log, Real.rpow, Real.pi⟩ = some s ∧
      s.length = 800 ∧ ∀ x ∈ s, -1 ≤ x ∧ x ≤ 1 := by
  obtain ⟨s, hs, hlen, hb⟩ :=
    sine_fade_exists 1500 (5 / 100) 2 3 (by norm_num) (by norm_num)
  exact ⟨s, hs, by rw [hlen, num_samples_5_100], hb⟩

theorem generate_scan_ng_spec :
    ∃ s : List ℝ, generate_scan_ng ⟨Real.sin, Real.log, Real.rpow, Real.pi⟩ = some s ∧
      s.length = 1280 ∧ ∀ x ∈ s, -1 ≤ x ∧ x ≤ 1 := by
  obtain ⟨s, hs, hlen, hb⟩ :=
    sine_fade_exists 300 (8 / 100) 3 5 (by norm_num) (by norm_num)
  exact ⟨s, hs, by rw [hlen, num_samples_8_100], hb⟩

theorem generate_warn_spec :
    ∃ s : List ℝ, generate_warn ⟨Real.sin, Real.log, Real.rpow, Real.pi⟩ = some s ∧
      s.length = 2400 ∧ ∀ x ∈ s, -1 ≤ x ∧ x ≤ 1 := by
  have hw : ∀ y ∈ ((generate_sine_wave (⟨Real.sin, Real.log, Real.rpow, Real.pi⟩ : RealOps ℝ)
      1000 (5 / 100)).getD []), -1 ≤ y ∧ y ≤ 1 :=
    fun y hy => generate_sine_wave_mem_bounds 1000 (5 / 100) hy
  unfold generate_warn
  rw [generate_sine_wave_eq _ (by norm_num) (by norm_num)] at hw ⊢
  simp only [Option.getD_some] at hw
  simp only [Option.map_some']
  refine ⟨_, rfl, ?_, ?_⟩
  · rw [concatenate_two _ _ (by norm_num : (0 : ℚ) < 50)]
    simp only [List.length_append, List.length_replicate, apply_fade_length,
      List.length_map, length_t_grid, num_samples_5_100, silence_50]
  · intro x hx
    rcases concatenate_mem hx with ⟨l, hl, hxl⟩ | rfl
    · simp only [List.mem_cons, List.mem_singleton, List.not_mem_nil, or_false] at hl
      rcases hl with rfl | rfl <;> exact apply_fade_mem_bounds hw hxl
    · norm_num

theorem generate_crit_spec :
    ∃ s : List ℝ, generate_crit ⟨Real.sin, Real.log, Real.rpow, Real.pi⟩ = some s ∧
      s.length = 3360 ∧ ∀ x ∈ s, -1 ≤ x ∧ x ≤ 1 := by
  have hw : ∀ y ∈ ((generate_sine_wave (⟨Real.sin, Real.log, Real.rpow, Real.pi⟩ : RealOps ℝ)
      400 (5 / 100)).getD []), -1 ≤ y ∧ y ≤ 1 :=
    fun y hy => generate_sine_wave_mem_bounds 400 (5 / 100) hy
  unfold generate_crit
  rw [generate_sine_wave_eq _ (by norm_num) (by norm_num)] at hw ⊢
  simp only [Option.getD_some] at hw
  simp only [Option.map_some']
  refine ⟨_, rfl, ?_, ?_⟩
  · rw [concatenate_three _ _ _ (by norm_num : (0 : ℚ) < 30)]
    simp only [List.length_append, List.length_replicate, apply_fade_length,
      List.length_map, length_t_grid, num_samples_5_100, silence_30]
  · intro x hx
    rcases concatenate_mem hx with ⟨l, hl, hxl⟩ | rfl
    · simp only [List.mem_cons, List.mem_singleton, List.not_mem_nil, or_false] at hl
      rcases hl with rfl | rfl | rfl <;> exact apply_fade_mem_bounds hw hxl
    · norm_num

end SoundLemmas

/-! ### Helper lemmas: the sample encoder -/

theorem clip_bounds (x : ℚ) : -1 ≤ clip x (-1) 1 ∧ clip x (-1) 1 ≤ 1 := by
  unfold clip
  constructor
  · exact le_min (by norm_num) (le_max_left _ _)
  · exact min_le_left _ _

theorem pyInt_le {q : ℚ} {b : ℤ} (h : q ≤ (b : ℚ)) : pyInt q ≤ b := by
  unfold pyInt
  split
  · calc ⌊q⌋ ≤ ⌊(b : ℚ)⌋ := Int.floor_le_floor h
      _ = b := Int.floor_intCast b
  · calc ⌈q⌉ ≤ ⌈(b : ℚ)⌉ := Int.ceil_le_ceil h
      _ = b := Int.ceil_intCast b

theorem le_pyInt {q : ℚ} {b : ℤ} (hb : b ≤ 0) (h : (b : ℚ) ≤ q) : b ≤ pyInt q := by
  unfold pyInt
  split
  · next h0 =>
    calc b ≤ 0 := hb
      _ ≤ ⌊q⌋ := Int.floor_nonneg.mpr h0
  · calc b = ⌈(b : ℚ)⌉ := (Int.ceil_intCast b).symm
      _ ≤ ⌈q⌉ := Int.ceil_le_ceil h

theorem toInt16_eq_self {z : ℤ} (h1 : -32768 ≤ z) (h2 : z ≤ 32767) : toInt16 z = z := by
  unfold toInt16
  have hmod : (z + 32768) % 65536 = z + 32768 := Int.emod_eq_of_lt (by omega) (by omega)
  omega

theorem quantize_mem_bounds (s : List ℚ) {x : ℤ} (hx : x ∈ quantize s) :
    -32767 ≤ x ∧ x ≤ 32767 := by
  unfold quantize at hx
  obtain ⟨v, -, rfl⟩ := List.mem_map.mp hx
  obtain ⟨hc1, hc2⟩ := clip_bounds v
  have hq1 : (-32767 : ℚ) ≤ clip v (-1) 1 * (MAX_AMPLITUDE : ℚ) := by
    have : (MAX_AMPLITUDE : ℚ) = 32767 := by norm_num [MAX_AMPLITUDE]
    nlinarith
  have hq2 : clip v (-1) 1 * (MAX_AMPLITUDE : ℚ) ≤ 32767 := by
    have : (MAX_AMPLITUDE : ℚ) = 32767 := by norm_num [MAX_AMPLITUDE]
    nlinarith
  have hp1 : (-32767 : ℤ) ≤ pyInt (clip v (-1) 1 * (MAX_AMPLITUDE : ℚ)) :=
    le_pyInt (by norm_num) (by exact_mod_cast hq1)
  have hp2 : pyInt (clip v (-1) 1 * (MAX_AMPLITUDE : ℚ)) ≤ 32767 :=
    pyInt_le (by exact_mod_cast hq2)
  rw [toInt16_eq_self (by omega) hp2]
  exact ⟨hp1, hp2⟩

theorem length_bytes (l : List ℤ) : (l.flatMap int16ToBytes).length = 2 * l.length := by
  induction l with
  | nil => rfl
  | cons z zs ih =>
    simp only [List.flatMap_cons, List.length_append, ih, int16ToBytes]
    simp only [List.length_cons, List.length_nil, List.length, Nat.add_zero]
    omega

theorem save_wav_none_iff (s : List ℚ) : save_wav s = none ↔ s = [] := by
  unfold save_wav
  split
  · next h =>
    simp only [List.length_eq_zero] at h
    simp [h]
  · next h =>
    constructor
    · intro hc
      exact absurd hc (Option.some_ne_none _)
    · intro hc
      subst hc
      simp at h

theorem save_wav_info {s : List ℚ} (h : s ≠ []) :
    ∃ f, save_wav s = some f ∧
      get_wav_info f = ⟨1, 2, 16000, s.length, (s.length : ℚ) / 16000⟩ := by
  refine ⟨⟨CHANNELS, BIT_DEPTH / 8, SAMPLE_RATE, (quantize s).flatMap int16ToBytes⟩, ?_, ?_⟩
  · unfold save_wav
    rw [if_neg (by rw [List.length_eq_zero]; exact h)]
  · unfold get_wav_info
    have hb : (((quantize s).flatMap int16ToBytes).length) = 2 * s.length := by
      rw [length_bytes]
      unfold quantize
      rw [List.length_map]
    have hn : ((quantize s).flatMap int16ToBytes).length / (BIT_DEPTH / 8 * CHANNELS)
        = s.length := by
      rw [hb]
      norm_num [BIT_DEPTH, CHANNELS]
    simp only [hn]
    norm_num [CHANNELS, BIT_DEPTH, SAMPLE_RATE]

/-! ## Claim theorems -/

/-- C6: each generator and the ADSR shaper fails with an invalid-argument
error exactly when its arguments are invalid — non-positive frequency or
duration, square duty outside the open interval `(0, 1)`, ADSR
`sustain_level` outside the closed interval `[0, 1]` — and in every function
the validation is the first thing executed (in this embedding each function
is a validation guard around a pure value, so the input is never touched,
let alone modified, on the error path). -/
theorem c6_validation :
    (∀ (ops : RealOps ℚ) (f d : ℚ), generate_sine_wave ops f d = none ↔ f ≤ 0 ∨ d ≤ 0) ∧
    (∀ f d duty : ℚ, generate_square_wave f d duty = none ↔
      f ≤ 0 ∨ d ≤ 0 ∨ ¬(0 < duty ∧ duty < 1)) ∧
    (∀ f d : ℚ, generate_sawtooth_wave f d = none ↔ f ≤ 0 ∨ d ≤ 0) ∧
    (∀ (ops : RealOps ℚ) (sf ef d : ℚ) (b : Bool),
      generate_sweep ops sf ef d b = none ↔ sf ≤ 0 ∨ ef ≤ 0 ∨ d ≤ 0) ∧
    (∀ (xs : List ℚ) (a dm s r : ℚ),
      apply_adsr xs a dm s r = none ↔ ¬(0 ≤ s ∧ s ≤ 1)) := by
  refine ⟨?_, ?_, ?_, ?_, ?_⟩
  · intro ops f d
    unfold generate_sine_wave
    split_ifs with h1 h2 <;> simp_all
  · intro f d duty
    unfold generate_square_wave
    split_ifs with h1 h2 h3 <;> simp_all
  · intro f d
    unfold generate_sawtooth_wave
    split_ifs with h1 h2 <;> simp_all
  · intro ops sf ef d b
    unfold generate_sweep
    split_ifs with h1 h2 h3 <;> simp_all
  · intro xs a dm s r
    unfold apply_adsr
    split_ifs with h <;> simp_all

/-- C9: `save_wav` fails if and only if the signal is empty; in particular a
signal containing the out-of-range values `2.0` and `-2.0` encodes
successfully (the clip to `[-1, 1]` at lines 38–39 precedes scaling). -/
theorem c9_encode_errors :
    (∀ s : List ℚ, save_wav s = none ↔ s = []) ∧
      (save_wav [2, -2]).isSome = true := by
  refine ⟨save_wav_none_iff, ?_⟩
  unfold save_wav
  rw [if_neg (by simp)]
  rfl

/-- C10: every 16-bit sample value produced by the quantization step of
`save_wav` (clip to `[-1,1]`, scale by `MAX_AMPLITUDE = 32767`, truncate
toward zero, wrap to int16) lies in `[-32767, 32767]`; `-32768` is never
produced. -/
theorem c10_quantized_range (s : List ℚ) : ∀ x ∈ quantize s, -32767 ≤ x ∧ x ≤ 32767 :=
  fun _ hx => quantize_mem_bounds s hx

/-- Witness for C10 at the concrete signal `[2, -2]` (quantized to
`[32767, -32767]`). -/
theorem c10_witness :
    (-32767 : ℤ) ∈ quantize [2, -2] ∧ -32767 ≤ (-32767 : ℤ) ∧ (-32767 : ℤ) ≤ 32767 := by
  have e1 : clip 2 (-1) 1 = 1 := by
    unfold clip
    rw [max_eq_right (by norm_num), min_eq_left (by norm_num)]
  have e2 : clip (-2) (-1) 1 = -1 := by
    unfold clip
    rw [max_eq_left (by norm_num), min_eq_right (by norm_num)]
  have p1 : pyInt ((1 : ℚ) * (MAX_AMPLITUDE : ℚ)) = 32767 := by
    rw [pyInt_eq 32767 (by norm_num [MAX_AMPLITUDE]) (by norm_num [MAX_AMPLITUDE])
      (by norm_num [MAX_AMPLITUDE])]
  have p2 : pyInt ((-1 : ℚ) * (MAX_AMPLITUDE : ℚ)) = -32767 := by
    have hcast : ((-1 : ℚ)) * (MAX_AMPLITUDE : ℚ) = ((-32767 : ℤ) : ℚ) := by
      norm_num [MAX_AMPLITUDE]
    rw [hcast]
    unfold pyInt
    rw [if_neg (by norm_num), Int.ceil_intCast]
  have hq : quantize [2, -2] = [32767, -32767] := by
    unfold quantize
    rw [List.map_cons, List.map_cons, List.map_nil, e1, e2, p1, p2,
      toInt16_eq_self (by norm_num) (by norm_num), toInt16_eq_self (by norm_num) (by norm_num)]
  have hmem : (-32767 : ℤ) ∈ quantize [2, -2] := by
    rw [hq]
    simp
  exact ⟨hmem, c10_quantized_range [2, -2] _ hmem⟩

/-- C5: for every non-empty signal, writing it with `save_wav` and reading
the container back with `get_wav_info` reports 1 channel, 2-byte samples,
frame rate 16000, frame count equal to the signal length, and duration
`length / 16000` seconds (the equality is exact in the rational model, hence
in particular within the claimed 1% relative tolerance). -/
theorem c5_roundtrip (s : List ℚ) (h : s ≠ []) :
    ∃ f, save_wav s = some f ∧
      get_wav_info f = ⟨1, 2, 16000, s.length, (s.length : ℚ) / 16000⟩ :=
  save_wav_info h

/-- Witness for C5 at the one-sample signal `[1/2]`. -/
theorem c5_witness :
    [(1 : ℚ) / 2] ≠ [] ∧
      ∃ f, save_wav [(1 : ℚ) / 2] = some f ∧
        get_wav_info f = ⟨1, 2, 16000, [(1 : ℚ) / 2].length,
          ([(1 : ℚ) / 2].length : ℚ) / 16000⟩ :=
  ⟨List.cons_ne_nil _ _, c5_roundtrip _ (List.cons_ne_nil _ _)⟩

/-- C7 counterexample: the claim computes the silence block as
`round(sample_rate * silence_ms / 1000)` zero samples.  At
`silence_ms = 25/256` (`0.09765625` ms, exactly representable in binary
floating point, so the float and rational computations agree) the product
is `1.5625`; the code's `int()` truncates to 1 silence sample, giving
total length `1 + 1 + 1 = 3` for two one-sample segments, while the claim's
`round` gives 2 silence samples and total length 4. -/
theorem c7_counterexample :
    (concatenate_with_silence [[(1 : ℚ)], [1]] (25 / 256)).length = 3 ∧
      1 + (pyRound ((SAMPLE_RATE : ℚ) * (25 / 256) / 1000)).toNat + 1 = 4 := by
  constructor
  · rw [concatenate_two _ _ (by norm_num : (0 : ℚ) < 25 / 256)]
    have h1 : (pyInt ((SAMPLE_RATE : ℚ) * (25 / 256) / 1000)).toNat = 1 := by
      rw [pyInt_eq 1 (by norm_num [SAMPLE_RATE]) (by norm_num [SAMPLE_RATE])
        (by norm_num [SAMPLE_RATE])]
      rfl
    rw [h1]
    rfl
  · rw [pyRound_up 1 (by norm_num [SAMPLE_RATE]) (by norm_num [SAMPLE_RATE])
      (by norm_num [SAMPLE_RATE])]
    rfl

/-- C7 (amended): `concatenate_with_silence` returns the empty signal for an
empty segment list; for `silence_ms ≤ 0` it returns the straight
concatenation, of length the sum of the segment lengths; for
`silence_ms > 0` and an arbitrary segment list it inserts
`int(sample_rate * silence_ms / 1000)` zero samples (truncation toward
zero — not `round` as the claim stated) between every pair of adjacent
segments only, preserving order: a single segment is returned as is (no
silence before or after), and on `a :: b :: rest` the result is `a`,
the silence block, then the concatenation of the remaining segments with
the same silence — together these two equations determine the function on
every list of segments; the total length is the sum of the segment lengths
plus `(number of segments − 1)` silence blocks; in particular `[a, b]` at
50 ms and 16000 Hz yields length `len a + len b + 800` (there `int` and
`round` agree, so the claim's example stands). -/
theorem c7_concatenate :
    (∀ ms : ℚ, concatenate_with_silence ([] : List (List ℚ)) ms = []) ∧
    (∀ (segs : List (List ℚ)) (ms : ℚ), ms ≤ 0 →
      concatenate_with_silence segs ms = segs.flatten ∧
        (concatenate_with_silence segs ms).length = (segs.map List.length).sum) ∧
    (∀ (a : List ℚ) (ms : ℚ), 0 < ms → concatenate_with_silence [a] ms = a) ∧
    (∀ (a b : List ℚ) (rest : List (List ℚ)) (ms : ℚ), 0 < ms →
      concatenate_with_silence (a :: b :: rest) ms =
        a ++ (List.replicate ((pyInt ((SAMPLE_RATE : ℚ) * ms / 1000)).toNat) 0 ++
          concatenate_with_silence (b :: rest) ms)) ∧
    (∀ (segs : List (List ℚ)) (ms : ℚ), 0 < ms →
      (concatenate_with_silence segs ms).length =
        (segs.map List.length).sum +
          (segs.length - 1) * (pyInt ((SAMPLE_RATE : ℚ) * ms / 1000)).toNat) ∧
    (∀ (a b : List ℚ) (ms : ℚ), 0 < ms →
      concatenate_with_silence [a, b] ms =
        a ++ (List.replicate ((pyInt ((SAMPLE_RATE : ℚ) * ms / 1000)).toNat) 0 ++ b)) ∧
    (∀ a b : List ℚ,
      (concatenate_with_silence [a, b] 50).length = a.length + b.length + 800) := by
  refine ⟨concatenate_empty, ?_, ?_, ?_, ?_, ?_, ?_⟩
  · intro segs ms h
    refine ⟨concatenate_nonpos _ h, ?_⟩
    rw [concatenate_nonpos _ h, List.length_flatten]
  · intro a ms h
    exact concatenate_single a h
  · intro a b rest ms h
    exact concatenate_cons_cons a b rest h
  · intro segs ms h
    exact concatenate_length_pos segs h
  · intro a b ms h
    exact concatenate_two a b h
  · intro a b
    rw [concatenate_two _ _ (by norm_num : (0 : ℚ) < 50)]
    simp only [List.length_append, List.length_replicate, silence_50]
    omega

/-- Witness for C7 at the three-segment list `[[1], [2], [3]]` with 50 ms
silence (the adjacent-insertion recurrence conjunct). -/
theorem c7_witness :
    (0 : ℚ) < 50 ∧
      concatenate_with_silence [[(1 : ℚ)], [2], [3]] 50 =
        [(1 : ℚ)] ++
          (List.replicate ((pyInt ((SAMPLE_RATE : ℚ) * 50 / 1000)).toNat) 0 ++
            concatenate_with_silence [[(2 : ℚ)], [3]] 50) :=
  ⟨by norm_num, c7_concatenate.2.2.2.1 [(1 : ℚ)] [2] [[(3 : ℚ)]] 50 (by norm_num)⟩

/-- C1 counterexample: the claim says every generator returns exactly
`round(sample_rate * duration)` samples.  At `duration = 1/8192` s (exactly
representable in binary floating point; `16000/8192 = 1.953125` so the float
and rational computations agree) the code's `int()` truncation gives 1
sample while `round` gives 2; shown here on `generate_sawtooth_wave`, whose
sample count line is shared verbatim by all four generators. -/
theorem c1_counterexample :
    (∃ s : List ℚ, generate_sawtooth_wave 440 (1 / 8192) = some s ∧ s.length = 1) ∧
      (pyRound ((SAMPLE_RATE : ℚ) * (1 / 8192))).toNat = 2 := by
  constructor
  · refine ⟨_, generate_sawtooth_wave_eq (by norm_num) (by norm_num), ?_⟩
    rw [List.length_map, length_t_grid]
    exact num_samples_val _ 1 (by norm_num [SAMPLE_RATE]) (by norm_num [SAMPLE_RATE])
  · rw [pyRound_up 1 (by norm_num [SAMPLE_RATE]) (by norm_num [SAMPLE_RATE])
      (by norm_num [SAMPLE_RATE])]
    rfl

/-- C1 (amended): for every positive frequency and duration (and duty
strictly inside `(0,1)` for square), each generator succeeds and returns a
signal of exactly `int(sample_rate * duration)` samples (truncation toward
zero — not `round` as the claim stated), where `num_samples` is that count
and sample `i` is taken at `t_i = i * duration / num_samples` (which equals
`i / sample_rate` only when `sample_rate * duration` is an integer); e.g.
sine's sample `i` equals `sin(2π · frequency · t_i)`. -/
theorem c1_amended :
    (∀ f d : ℚ, 0 < f → 0 < d →
      ∃ s : List ℝ,
        generate_sine_wave (⟨Real.sin, Real.log, Real.rpow, Real.pi⟩ : RealOps ℝ) f d =
            some s ∧
          s.length = num_samples d ∧
          ∀ i < s.length,
            s.getD i 0 = Real.sin (2 * Real.pi * (f : ℝ) *
              (((i : ℚ) * d / (num_samples d : ℚ) : ℚ) : ℝ))) ∧
    (∀ f d duty : ℚ, 0 < f → 0 < d → 0 < duty → duty < 1 →
      ∃ s : List ℚ, generate_square_wave f d duty = some s ∧ s.length = num_samples d) ∧
    (∀ f d : ℚ, 0 < f → 0 < d →
      ∃ s : List ℚ, generate_sawtooth_wave f d = some s ∧ s.length = num_samples d) ∧
    (∀ (sf ef d : ℚ) (b : Bool), 0 < sf → 0 < ef → 0 < d →
      ∃ s : List ℝ,
        generate_sweep (⟨Real.sin, Real.log, Real.rpow, Real.pi⟩ : RealOps ℝ) sf ef d b =
            some s ∧
          s.length = num_samples d) := by
  refine ⟨?_, ?_, ?_, ?_⟩
  · intro f d hf hd
    refine ⟨_, generate_sine_wave_eq _ hf hd, ?_, ?_⟩
    · rw [List.length_map, length_t_grid]
    · intro i hi
      rw [List.length_map, length_t_grid] at hi
      rw [List.getD_eq_getElem _ _ (by rw [List.length_map, length_t_grid]; omega),
        List.getElem_map, getElem_t_grid]
  · intro f d duty hf hd h1 h2
    refine ⟨_, generate_square_wave_eq hf hd h1 h2, ?_⟩
    rw [List.length_map, length_t_grid]
  · intro f d hf hd
    refine ⟨_, generate_sawtooth_wave_eq hf hd, ?_⟩
    rw [List.length_map, length_t_grid]
  · intro sf ef d b hs he hd
    refine ⟨_, generate_sweep_eq _ b hs he hd, ?_⟩
    rw [List.length_map, length_t_grid]

/-- Witness for C1 at `frequency = 1`, `duration = 1` (sawtooth conjunct). -/
theorem c1_witness :
    (0 : ℚ) < 1 ∧
      ∃ s : List ℚ, generate_sawtooth_wave 1 1 = some s ∧ s.length = num_samples 1 :=
  ⟨by norm_num, c1_amended.2.2.1 1 1 (by norm_num) (by norm_num)⟩

/-- C3 counterexample: the claim says the square wave output contains
exactly two distinct values, `-1.0` and `+1.0`.  At `frequency = 440`,
`duration = 1/8192` s, `duty = 1/2` (all float-exact) the output is the
single-sample signal `[1.0]`, which does not contain `-1.0`. -/
theorem c3_counterexample :
    generate_square_wave 440 (1 / 8192) (1 / 2) = some [1] ∧
      (-1 : ℚ) ∉ [(1 : ℚ)] := by
  constructor
  · rw [generate_square_wave_eq (by norm_num) (by norm_num) (by norm_num) (by norm_num),
      num_samples_val (1 / 8192) 1 (by norm_num [SAMPLE_RATE]) (by norm_num [SAMPLE_RATE])]
    have hg : t_grid (1 / 8192) 1 = [0] := by
      unfold t_grid
      rw [show List.range 1 = [0] from rfl]
      simp only [List.map_cons, List.map_nil]
      norm_num
    rw [hg]
    simp only [List.map_cons, List.map_nil]
    rw [mul_zero, Int.fract_zero, if_pos (by norm_num : (0 : ℚ) < 1 / 2)]
  · intro hc
    rw [List.mem_singleton] at hc
    norm_num at hc

/-- C3 (amended): for every valid input, every sample of the square wave is
either `+1.0` or `-1.0` (the realized value set is a subset of
`{-1, +1}` — a short or low-frequency signal may contain only one of them),
with sample `i` equal to `+1.0` exactly when `(frequency * t_i) mod 1 <
duty`, where `t_i = i * duration / num_samples`. -/
theorem c3_amended (f d duty : ℚ) (hf : 0 < f) (hd : 0 < d) (h1 : 0 < duty)
    (h2 : duty < 1) :
    ∃ s : List ℚ, generate_square_wave f d duty = some s ∧
      (∀ x ∈ s, x = 1 ∨ x = -1) ∧
      ∀ i < s.length,
        s.getD i 0 =
          if Int.fract (f * ((i : ℚ) * d / (num_samples d : ℚ))) < duty then 1 else -1 := by
  refine ⟨_, generate_square_wave_eq hf hd h1 h2, ?_, ?_⟩
  · intro x hx
    obtain ⟨t, ht, rfl⟩ := List.mem_map.mp hx
    split
    · exact Or.inl rfl
    · exact Or.inr rfl
  · intro i hi
    rw [List.length_map, length_t_grid] at hi
    rw [List.getD_eq_getElem _ _ (by rw [List.length_map, length_t_grid]; omega),
      List.getElem_map, getElem_t_grid]

/-- Witness for C3 at `frequency = 1`, `duration = 1`, `duty = 1/2`. -/
theorem c3_witness :
    (0 : ℚ) < 1 ∧
      ∃ s : List ℚ, generate_square_wave 1 1 (1 / 2) = some s ∧
        (∀ x ∈ s, x = 1 ∨ x = -1) ∧
        ∀ i < s.length,
          s.getD i 0 =
            if Int.fract (1 * ((i : ℚ) * 1 / (num_samples 1 : ℚ))) < 1 / 2 then 1
            else -1 :=
  ⟨by norm_num, c3_amended 1 1 (1 / 2) (by norm_num) (by norm_num) (by norm_num) (by norm_num)⟩

/-- C8 counterexample: the claim computes `fade_in_samples` with `round`.
At `fade_in_ms = 11/64` (`0.171875` ms, float-exact) the product is
`2.75`: the code's `int()` gives 2 fade samples, so on a constant-1 signal
of 8 samples the sample at index 1 is multiplied by `linspace(0,1,2)[1] = 1`
and stays `1`; the claim's `round` gives 3 fade samples and predicts
`1 * linspace(0,1,3)[1] = 1/2`. -/
theorem c8_counterexample :
    (apply_fade (List.replicate 8 (1 : ℚ)) (11 / 64) 0).getD 1 0 = 1 ∧
      (List.replicate 8 (1 : ℚ)).getD 1 0 *
        (np_linspace (0 : ℚ) 1
          ((min (pyRound ((SAMPLE_RATE : ℚ) * (11 / 64) / 1000))
            (((List.replicate 8 (1 : ℚ)).length / 2 : ℕ) : ℤ)).toNat)).getD 1 0 = 1 / 2 := by
  have hlen : (List.replicate 8 (1 : ℚ)).length = 8 := by simp
  constructor
  · have hfs : fade_samples (11 / 64) ((List.replicate 8 (1 : ℚ)).length) = 2 := by
      rw [hlen]
      unfold fade_samples
      rw [pyInt_eq 2 (by norm_num [SAMPLE_RATE]) (by norm_num [SAMPLE_RATE])
        (by norm_num [SAMPLE_RATE])]
      rfl
    rw [apply_fade_getD, hfs, if_pos (by norm_num : (1 : ℕ) < 2),
      getD_replicate _ _ _ _ (by norm_num : (1 : ℕ) < 8),
      getD_np_linspace _ _ _ _ _ (by norm_num)]
    norm_num
  · have hround : pyRound ((SAMPLE_RATE : ℚ) * (11 / 64) / 1000) = 3 := by
      rw [pyRound_up 2 (by norm_num [SAMPLE_RATE]) (by norm_num [SAMPLE_RATE])
        (by norm_num [SAMPLE_RATE])]
      norm_num
    rw [hround, hlen,
      show ((min (3 : ℤ) (((8 / 2 : ℕ) : ℤ))).toNat) = 3 from rfl,
      getD_replicate _ _ _ _ (by norm_num : (1 : ℕ) < 8),
      getD_np_linspace _ _ _ _ _ (by norm_num : (1 : ℕ) < 3)]
    norm_num

/-- C8 (amended): `apply_fade` returns a new signal of the input's length
(the pure embedding cannot mutate its input); with `fade_samples ms n =
min(int(sample_rate * ms / 1000), n // 2)` clamped at 0 (truncation toward
zero — not `round` as the claim stated), a non-positive millisecond value
gives a count of 0 and that side is a no-op; the first `fade_samples`
samples are multiplied by the linear ramp `linspace(0, 1, k)`, the last by
`linspace(1, 0, k)`, and every sample outside those two regions is
unchanged. -/
theorem c8_amended {α : Type} [LinearOrderedField α] (xs : List α) (fi fo : ℚ) :
    (apply_fade xs fi fo).length = xs.length ∧
    (∀ ms : ℚ, ms ≤ 0 → fade_samples ms xs.length = 0) ∧
    (∀ i < fade_samples fi xs.length,
      (apply_fade xs fi fo).getD i 0 =
        xs.getD i 0 * (np_linspace 0 1 (fade_samples fi xs.length)).getD i 0) ∧
    (∀ i, fade_samples fi xs.length ≤ i → i < xs.length - fade_samples fo xs.length →
      (apply_fade xs fi fo).getD i 0 = xs.getD i 0) ∧
    (∀ i, xs.length - fade_samples fo xs.length ≤ i → i < xs.length →
      (apply_fade xs fi fo).getD i 0 =
        xs.getD i 0 * (np_linspace 1 0 (fade_samples fo xs.length)).getD
          (i - (xs.length - fade_samples fo xs.length)) 0) := by
  refine ⟨apply_fade_length xs fi fo, ?_, ?_, ?_, ?_⟩
  · intro ms hms
    unfold fade_samples
    have h2 : (SAMPLE_RATE : ℚ) * ms / 1000 = 16 * ms := by
      norm_num [SAMPLE_RATE]
      ring
    have h1 : (SAMPLE_RATE : ℚ) * ms / 1000 ≤ 0 := by
      rw [h2]
      linarith
    exact Int.toNat_of_nonpos (le_trans (min_le_left _ _) (pyInt_nonpos h1))
  · intro i hi
    rw [apply_fade_getD, if_pos hi]
  · intro i h1 h2
    rw [apply_fade_getD, if_neg (not_lt.mpr h1), if_neg (by omega)]
  · intro i h1 h2
    have hk1 := fade_samples_le fi xs.length
    have hk2 := fade_samples_le fo xs.length
    rw [apply_fade_getD, if_neg (by omega), if_pos ⟨h1, h2⟩]

/-- Witness for C8: fade-in of 1 ms on the four-sample constant-1 signal
(`fade_samples = min(16, 2) = 2`), sample 0. -/
theorem c8_witness :
    0 < fade_samples 1 ([(1 : ℚ), 1, 1, 1].length) ∧
      (apply_fade [(1 : ℚ), 1, 1, 1] 1 0).getD 0 0 =
        [(1 : ℚ), 1, 1, 1].getD 0 0 *
          (np_linspace 0 1 (fade_samples 1 ([(1 : ℚ), 1, 1, 1].length))).getD 0 0 := by
  have hfs : fade_samples 1 ([(1 : ℚ), 1, 1, 1].length) = 2 := by
    rw [show [(1 : ℚ), 1, 1, 1].length = 4 from rfl]
    unfold fade_samples
    rw [pyInt_eq 16 (by norm_num [SAMPLE_RATE]) (by norm_num [SAMPLE_RATE])
      (by norm_num [SAMPLE_RATE])]
    rfl
  constructor
  · rw [hfs]
    norm_num
  · exact (c8_amended [(1 : ℚ), 1, 1, 1] 1 0).2.2.1 0 (by rw [hfs]; norm_num)

/-- C4: every sample of every generated signal lies in `[-1, 1]`: the sine,
square, and sweep generators by construction, the sawtooth strictly below
`+1` (range `[-1, 1)`); `apply_fade` and `apply_adsr` never increase the
norm of any sample position, and `concatenate_with_silence` preserves the
range (inserted silence is `0`). -/
theorem c4_sample_range :
    (∀ (f d : ℚ) (x : ℝ),
      x ∈ (generate_sine_wave (⟨Real.sin, Real.log, Real.rpow, Real.pi⟩ : RealOps ℝ)
          f d).getD [] → -1 ≤ x ∧ x ≤ 1) ∧
    (∀ (f d duty x : ℚ),
      x ∈ (generate_square_wave f d duty).getD [] → -1 ≤ x ∧ x ≤ 1) ∧
    (∀ (f d x : ℚ),
      x ∈ (generate_sawtooth_wave f d).getD [] → -1 ≤ x ∧ x < 1) ∧
    (∀ (sf ef d : ℚ) (b : Bool) (x : ℝ),
      x ∈ (generate_sweep (⟨Real.sin, Real.log, Real.rpow, Real.pi⟩ : RealOps ℝ)
          sf ef d b).getD [] → -1 ≤ x ∧ x ≤ 1) ∧
    (∀ (α : Type) [LinearOrderedField α], ∀ (xs : List α) (fi fo : ℚ) (i : ℕ),
      |(apply_fade xs fi fo).getD i 0| ≤ |xs.getD i 0|) ∧
    (∀ (α : Type) [LinearOrderedField α], ∀ (xs : List α) (a dm s r : ℚ) (i : ℕ),
      |((apply_adsr xs a dm s r).getD []).getD i 0| ≤ |xs.getD i 0|) ∧
    (∀ (α : Type) [LinearOrderedField α], ∀ (segs : List (List α)) (ms : ℚ),
      (∀ l ∈ segs, ∀ x ∈ l, -1 ≤ x ∧ x ≤ 1) →
        ∀ x ∈ concatenate_with_silence segs ms, -1 ≤ x ∧ x ≤ 1) := by
  refine ⟨?_, ?_, ?_, ?_, ?_, ?_, ?_⟩
  · exact fun f d x hx => generate_sine_wave_mem_bounds f d hx
  · intro f d duty x hx
    rcases generate_square_wave_mem_values f d duty hx with rfl | rfl <;> norm_num
  · exact fun f d x hx => generate_sawtooth_wave_mem_bounds f d hx
  · exact fun sf ef d b x hx => generate_sweep_mem_bounds sf ef d b hx
  · intro α _inst xs fi fo i
    exact apply_fade_getD_abs xs fi fo i
  · intro α _inst xs a dm s r i
    exact apply_adsr_getD_abs xs a dm s r i
  · intro α _inst segs ms hseg x hx
    rcases concatenate_mem hx with ⟨l, hl, hxl⟩ | rfl
    · exact hseg l hl x hxl
    · norm_num

/-- Witness for C4 (concatenation conjunct) at the one-segment list
`[[1/2]]` with no silence. -/
theorem c4_witness :
    (∀ l ∈ [[(1 : ℚ) / 2]], ∀ x ∈ l, -1 ≤ x ∧ x ≤ 1) ∧
      (1 : ℚ) / 2 ∈ concatenate_with_silence [[(1 : ℚ) / 2]] 0 ∧
      -1 ≤ (1 : ℚ) / 2 ∧ (1 : ℚ) / 2 ≤ 1 := by
  have hseg : ∀ l ∈ [[(1 : ℚ) / 2]], ∀ x ∈ l, -1 ≤ x ∧ x ≤ 1 := by
    intro l hl x hx
    rw [List.mem_singleton] at hl
    subst hl
    rw [List.mem_singleton] at hx
    subst hx
    norm_num
  have hmem : (1 : ℚ) / 2 ∈ concatenate_with_silence [[(1 : ℚ) / 2]] 0 := by
    rw [concatenate_nonpos _ le_rfl]
    simp
  exact ⟨hseg, hmem, c4_sample_range.2.2.2.2.2.2 ℚ [[(1 : ℚ) / 2]] 0 hseg ((1 : ℚ) / 2) hmem⟩

/-- Catalog lookup of `ok` (definitional). -/
theorem lookup_ok {α : Type} [LinearOrderedField α] (ops : RealOps α) :
    (SOUND_CONFIGS ops).lookup SoundType.ok =
      some ⟨"ok", "成功通知 - 明るい短音・上昇系", generate_ok ops⟩ := rfl

/-- Catalog lookup of `ng` (definitional). -/
theorem lookup_ng {α : Type} [LinearOrderedField α] (ops : RealOps α) :
    (SOUND_CONFIGS ops).lookup SoundType.ng =
      some ⟨"ng", "失敗通知 - 下降・やや長め", generate_ng ops⟩ := rfl

/-- Catalog lookup of `warn` (definitional). -/
theorem lookup_warn {α : Type} [LinearOrderedField α] (ops : RealOps α) :
    (SOUND_CONFIGS ops).lookup SoundType.warn =
      some ⟨"warn", "警告 - 同音2回で注意喚起", generate_warn ops⟩ := rfl

/-- Catalog lookup of `crit` (definitional). -/
theorem lookup_crit {α : Type} [LinearOrderedField α] (ops : RealOps α) :
    (SOUND_CONFIGS ops).lookup SoundType.crit =
      some ⟨"crit", "緊急警告 - 低音3連で緊急性", generate_crit ops⟩ := rfl

/-- Catalog lookup of `moo` (definitional). -/
theorem lookup_moo {α : Type} [LinearOrderedField α] (ops : RealOps α) :
    (SOUND_CONFIGS ops).lookup SoundType.moo =
      some ⟨"moo", "柔らかい通知 - 低域スイープ", generate_moo ops⟩ := rfl

/-- Catalog lookup of `mew` (definitional). -/
theorem lookup_mew {α : Type} [LinearOrderedField α] (ops : RealOps α) :
    (SOUND_CONFIGS ops).lookup SoundType.mew =
      some ⟨"mew", "軽い通知 - 高域スイープ", generate_mew ops⟩ := rfl

/-- Catalog lookup of `scan_ok` (definitional). -/
theorem lookup_scan_ok {α : Type} [LinearOrderedField α] (ops : RealOps α) :
    (SOUND_CONFIGS ops).lookup SoundType.scan_ok =
      some ⟨"scan_ok", "スキャン成功 - 極短で鋭い成功音", generate_scan_ok ops⟩ := rfl

/-- Catalog lookup of `scan_ng` (definitional). -/
theorem lookup_scan_ng {α : Type} [LinearOrderedField α] (ops : RealOps α) :
    (SOUND_CONFIGS ops).lookup SoundType.scan_ng =
      some ⟨"scan_ng", "スキャン失敗 - 低短音で即時失敗", generate_scan_ng ops⟩ := rfl

/-- One catalog entry of C2, abstracted over the already-evaluated
`generate_sound` result. -/
theorem c2_case (t : SoundType) (s : List ℝ)
    (hok : generate_sound (⟨Real.sin, Real.log, Real.rpow, Real.pi⟩ : RealOps ℝ) t =
      Except.ok s)
    (m : ℕ) (hlen : s.length = m) (hb : ∀ x ∈ s, -1 ≤ x ∧ x ≤ 1) (hm : 0 < m)
    (h1 : (5 / 100 : ℚ) ≤ (m : ℚ) / 16000) (h2 : (m : ℚ) / 16000 ≤ 25 / 100) :
    ∃ s2 : List ℝ,
      generate_sound (⟨Real.sin, Real.log, Real.rpow, Real.pi⟩ : RealOps ℝ) t =
          Except.ok s2 ∧
        s2 ≠ [] ∧ (∀ x ∈ s2, -1 ≤ x ∧ x ≤ 1) ∧
        (5 / 100 : ℚ) ≤ (s2.length : ℚ) / 16000 ∧ (s2.length : ℚ) / 16000 ≤ 25 / 100 := by
  refine ⟨s, hok, ?_, hb, ?_, ?_⟩
  · exact List.length_pos.mp (by rw [hlen]; omega)
  · rw [hlen]
    exact h1
  · rw [hlen]
    exact h2

/-- C2: for every one of the 8 catalog identities, `generate_sound`
succeeds with a non-empty signal whose samples all lie in `[-1, 1]` and
whose duration `length / 16000` lies in `[0.05, 0.25]` seconds.  (The
unknown-identity branch of `generate_sound` — lookup failure against
`SOUND_CONFIGS` — is by definition the `Except.error` case of the match;
since the identity type is the closed 8-value enumeration and the catalog
covers all of it, that branch is unreachable, exactly as the spec notes.) -/
theorem c2_catalog :
    ∀ t : SoundType,
      ∃ s : List ℝ,
        generate_sound (⟨Real.sin, Real.log, Real.rpow, Real.pi⟩ : RealOps ℝ) t =
            Except.ok s ∧
          s ≠ [] ∧ (∀ x ∈ s, -1 ≤ x ∧ x ≤ 1) ∧
          (5 / 100 : ℚ) ≤ (s.length : ℚ) / 16000 ∧ (s.length : ℚ) / 16000 ≤ 25 / 100 := by
  intro t
  cases t
  case ok =>
    obtain ⟨s, hs, hlen, hb⟩ := generate_ok_spec
    refine c2_case _ s ?_ 1280 hlen hb (by norm_num) (by norm_num) (by norm_num)
    unfold generate_sound
    rw [lookup_ok, hs]
  case ng =>
    obtain ⟨s, hs, hlen, hb⟩ := generate_ng_spec
    refine c2_case _ s ?_ 2400 hlen hb (by norm_num) (by norm_num) (by norm_num)
    unfold generate_sound
    rw [lookup_ng, hs]
  case warn =>
    obtain ⟨s, hs, hlen, hb⟩ := generate_warn_spec
    refine c2_case _ s ?_ 2400 hlen hb (by norm_num) (by norm_num) (by norm_num)
    unfold generate_sound
    rw [lookup_warn, hs]
  case crit =>
    obtain ⟨s, hs, hlen, hb⟩ := generate_crit_spec
    refine c2_case _ s ?_ 3360 hlen hb (by norm_num) (by norm_num) (by norm_num)
    unfold generate_sound
    rw [lookup_crit, hs]
  case moo =>
    obtain ⟨s, hs, hlen, hb⟩ := generate_moo_spec
    refine c2_case _ s ?_ 2400 hlen hb (by norm_num) (by norm_num) (by norm_num)
    unfold generate_sound
    rw [lookup_moo, hs]
  case mew =>
    obtain ⟨s, hs, hlen, hb⟩ := generate_mew_spec
    refine c2_case _ s ?_ 1600 hlen hb (by norm_num) (by norm_num) (by norm_num)
    unfold generate_sound
    rw [lookup_mew, hs]
  case scan_ok =>
    obtain ⟨s, hs, hlen, hb⟩ := generate_scan_ok_spec
    refine c2_case _ s ?_ 800 hlen hb (by norm_num) (by norm_num) (by norm_num)
    unfold generate_sound
    rw [lookup_scan_ok, hs]
  case scan_ng =>
    obtain ⟨s, hs, hlen, hb⟩ := generate_scan_ng_spec
    refine c2_case _ s ?_ 1280 hlen hb (by norm_num) (by norm_num) (by norm_num)
    unfold generate_sound
    rw [lookup_scan_ng, hs]

end BeepMaker
